import Mathlib

/-!
Shallow embedding of the run-orchestration subsystem of the benchmark
application (`src/workers/runner.py`, `src/api/runs.py`, `src/models/*`).

Conventions of the embedding:
* Database rows are Lean structures whose fields mirror the SQLAlchemy
  columns that the orchestration code reads or writes.
* Timestamps are `Int` (epoch seconds); "now" is passed in explicitly.
* JSON values (JSONB columns, SSE payloads, artifact files) are a small
  inductive `Json` type; Python truthiness on them is `Json.truthy`.
* The external Executor collaborator is a parameter `ExecEnv` mapping a
  query id to its outcome: either a returned `ExecutionResult` or a raised
  exception (modelling `asyncio.gather(..., return_exceptions=True)`).
* HTTP-error raising endpoints return `Except HttpError _`; the state is
  threaded explicitly, so an `.error` result leaves the store untouched.
-/

namespace BenchmarkApp

/-- JSON values, used for JSONB columns, SSE payloads and artifact files. -/
inductive Json where
  | null : Json
  | bool (b : Bool) : Json
  | num (q : Rat) : Json
  | str (s : String) : Json
  | arr (xs : List Json) : Json
  | obj (kvs : List (String × Json)) : Json

mutual

/-- Decidable equality for `Json` (the nested inductive prevents deriving). -/
def Json.decEq : (a b : Json) → Decidable (a = b)
  | .null, .null => .isTrue rfl
  | .bool a, .bool b =>
    if h : a = b then .isTrue (by rw [h]) else .isFalse (fun he => h (Json.bool.inj he))
  | .num a, .num b =>
    if h : a = b then .isTrue (by rw [h]) else .isFalse (fun he => h (Json.num.inj he))
  | .str a, .str b =>
    if h : a = b then .isTrue (by rw [h]) else .isFalse (fun he => h (Json.str.inj he))
  | .arr a, .arr b =>
    match Json.decEqList a b with
    | .isTrue h => .isTrue (by rw [h])
    | .isFalse h => .isFalse (fun he => h (Json.arr.inj he))
  | .obj a, .obj b =>
    match Json.decEqKvs a b with
    | .isTrue h => .isTrue (by rw [h])
    | .isFalse h => .isFalse (fun he => h (Json.obj.inj he))
  | .null, .bool _ => .isFalse (fun h => Json.noConfusion h)
  | .null, .num _ => .isFalse (fun h => Json.noConfusion h)
  | .null, .str _ => .isFalse (fun h => Json.noConfusion h)
  | .null, .arr _ => .isFalse (fun h => Json.noConfusion h)
  | .null, .obj _ => .isFalse (fun h => Json.noConfusion h)
  | .bool _, .null => .isFalse (fun h => Json.noConfusion h)
  | .bool _, .num _ => .isFalse (fun h => Json.noConfusion h)
  | .bool _, .str _ => .isFalse (fun h => Json.noConfusion h)
  | .bool _, .arr _ => .isFalse (fun h => Json.noConfusion h)
  | .bool _, .obj _ => .isFalse (fun h => Json.noConfusion h)
  | .num _, .null => .isFalse (fun h => Json.noConfusion h)
  | .num _, .bool _ => .isFalse (fun h => Json.noConfusion h)
  | .num _, .str _ => .isFalse (fun h => Json.noConfusion h)
  | .num _, .arr _ => .isFalse (fun h => Json.noConfusion h)
  | .num _, .obj _ => .isFalse (fun h => Json.noConfusion h)
  | .str _, .null => .isFalse (fun h => Json.noConfusion h)
  | .str _, .bool _ => .isFalse (fun h => Json.noConfusion h)
  | .str _, .num _ => .isFalse (fun h => Json.noConfusion h)
  | .str _, .arr _ => .isFalse (fun h => Json.noConfusion h)
  | .str _, .obj _ => .isFalse (fun h => Json.noConfusion h)
  | .arr _, .null => .isFalse (fun h => Json.noConfusion h)
  | .arr _, .bool _ => .isFalse (fun h => Json.noConfusion h)
  | .arr _, .num _ => .isFalse (fun h => Json.noConfusion h)
  | .arr _, .str _ => .isFalse (fun h => Json.noConfusion h)
  | .arr _, .obj _ => .isFalse (fun h => Json.noConfusion h)
  | .obj _, .null => .isFalse (fun h => Json.noConfusion h)
  | .obj _, .bool _ => .isFalse (fun h => Json.noConfusion h)
  | .obj _, .num _ => .isFalse (fun h => Json.noConfusion h)
  | .obj _, .str _ => .isFalse (fun h => Json.noConfusion h)
  | .obj _, .arr _ => .isFalse (fun h => Json.noConfusion h)

/-- Decidable equality for lists of `Json`. -/
def Json.decEqList : (a b : List Json) → Decidable (a = b)
  | [], [] => .isTrue rfl
  | [], _ :: _ => .isFalse (fun h => List.noConfusion h)
  | _ :: _, [] => .isFalse (fun h => List.noConfusion h)
  | x :: xs, y :: ys =>
    match Json.decEq x y, Json.decEqList xs ys with
    | .isTrue h1, .isTrue h2 => .isTrue (by rw [h1, h2])
    | .isFalse h1, _ => .isFalse (fun he => h1 (List.cons.inj he).1)
    | _, .isFalse h2 => .isFalse (fun he => h2 (List.cons.inj he).2)

/-- Decidable equality for JSON key/value pair lists. -/
def Json.decEqKvs : (a b : List (String × Json)) → Decidable (a = b)
  | [], [] => .isTrue rfl
  | [], _ :: _ => .isFalse (fun h => List.noConfusion h)
  | _ :: _, [] => .isFalse (fun h => List.noConfusion h)
  | (k₁, v₁) :: xs, (k₂, v₂) :: ys =>
    if h0 : k₁ = k₂ then
      match Json.decEq v₁ v₂, Json.decEqKvs xs ys with
      | .isTrue h1, .isTrue h2 => .isTrue (by rw [h0, h1, h2])
      | .isFalse h1, _ =>
        .isFalse (fun he => h1 (congrArg Prod.snd (List.cons.inj he).1))
      | _, .isFalse h2 => .isFalse (fun he => h2 (List.cons.inj he).2)
    else .isFalse (fun he => h0 (congrArg Prod.fst (List.cons.inj he).1))

end

instance : DecidableEq Json := Json.decEq

/-- Python truthiness of a JSON value (`if x:`). -/
def Json.truthy : Json → Bool
  | .null => false
  | .bool b => b
  | .num q => q ≠ 0
  | .str s => s ≠ ""
  | .arr xs => xs ≠ []
  | .obj kvs => kvs ≠ []

/-- Python `x or d` on an optional JSON value (as in `result.tool_calls or []`). -/
def jsonOrDefault (v : Option Json) (d : Json) : Json :=
  match v with
  | none => d
  | some j => if j.truthy then j else d

/-- Python truthiness of an optional string (`if s:`). -/
def strTruthy (s : Option String) : Bool :=
  match s with
  | none => false
  | some s => s ≠ ""

/-- A row of `queries` (src/models/query.py). -/
structure Query where
  id : Nat
  suite_id : Nat
  ordinal : Nat
  tag : Option String
  query_text : String
  expected_answer : String
deriving DecidableEq

/-- A row of `benchmark_suites` (src/models/suite.py), the fields read here. -/
structure BenchmarkSuite where
  id : Nat
  name : String
deriving DecidableEq

/-- A row of `agent_configs` (src/models/agent.py), the fields the runner and
the run API read. -/
structure AgentConfig where
  id : Nat
  name : String
  executor_type : String
  model : String
  system_prompt : Option String
  tools_config : Json
  model_settings : Json
deriving DecidableEq

/-- A row of `runs` (src/models/run.py). -/
structure Run where
  id : Nat
  suite_id : Nat
  agent_config_id : Nat
  label : String
  run_group : Option String
  run_number : Nat
  status : String
  progress_current : Nat
  progress_total : Nat
  batch_size : Nat
  error_message : Option String
  output_dir : Option String
  tags : List String
  started_at : Option Int
  completed_at : Option Int
  created_at : Int
deriving DecidableEq

/-- A row of `results` (src/models/result.py). -/
structure Result where
  run_id : Nat
  query_id : Nat
  agent_response : Option String
  tool_calls : Option Json
  reasoning : Option Json
  usage : Option Json
  execution_time_seconds : Option Rat
  error : Option String
deriving DecidableEq

/-- A row of `run_cost_previews`: the `RunCostPreview` model, with exactly the
columns that `src/api/runs.py` constructs and mutates (the model module itself
is imported as `models.run_cost_preview`). -/
structure RunCostPreview where
  id : Nat
  suite_id : Nat
  agent_config_id : Nat
  label : String
  tags : List String
  batch_size : Nat
  «repeat» : Nat
  output_dir : Option String
  query_ids : List Nat
  sample_query_ids : List Nat
  total_query_count : Nat
  sample_usage : Json
  sample_cost_usd : Rat
  estimated_total_cost_usd : Rat
  pricing_version : String
  currency : String
  status : String
  error_message : Option String
  started_at : Option Int
  completed_at : Option Int
  approved_at : Option Int
  consumed_at : Option Int
  created_at : Int
deriving DecidableEq

/-- The structured result returned by `Executor.execute`
(src/executors/base.py `ExecutionResult`). -/
structure ExecutionResult where
  response : String
  tool_calls : List Json
  reasoning : List Json
  usage : List (String × Json)
  execution_time_seconds : Rat
  error : Option String
deriving DecidableEq

/-- Outcome of one `executor.execute` call as observed through
`asyncio.gather(..., return_exceptions=True)`: either the returned
`ExecutionResult` or the raised exception's message. -/
inductive ExecOutcome where
  | ok (r : ExecutionResult) : ExecOutcome
  | exn (msg : String) : ExecOutcome
deriving DecidableEq

/-- The external Executor collaborator, as an environment mapping each query
id to the outcome of executing that query. -/
def ExecEnv := Nat → ExecOutcome

/-- One published SSE event (src/workers/sse_bus.py `publish`). -/
structure Event where
  run_id : Nat
  kind : String
  payload : Json
deriving DecidableEq

/-- One JSON artifact write (src/workers/runner.py `_save_result_json`'s
`filepath.write_text`). Later writes to the same path shadow earlier ones. -/
structure FileWrite where
  path : String
  content : Json
deriving DecidableEq

/-- The observable store: database tables plus the event stream and the
artifact files written so far. -/
structure St where
  suites : List BenchmarkSuite
  agents : List AgentConfig
  queries : List Query
  runs : List Run
  results : List Result
  previews : List RunCostPreview
  events : List Event
  files : List FileWrite
deriving DecidableEq

/-- `db.get(Run, run_id)`. -/
def St.findRun (st : St) (run_id : Nat) : Option Run :=
  st.runs.find? (fun r => r.id == run_id)

/-- `db.get(AgentConfig, id)`. -/
def St.findAgent (st : St) (id : Nat) : Option AgentConfig :=
  st.agents.find? (fun a => a.id == id)

/-- `db.get(BenchmarkSuite, id)`. -/
def St.findSuite (st : St) (id : Nat) : Option BenchmarkSuite :=
  st.suites.find? (fun s => s.id == id)

/-- `db.get(RunCostPreview, id)`. -/
def St.findPreview (st : St) (id : Nat) : Option RunCostPreview :=
  st.previews.find? (fun p => p.id == id)

/-- Commit a mutation of the run row with the given id. -/
def St.updateRun (st : St) (run_id : Nat) (f : Run → Run) : St :=
  { st with runs := st.runs.map (fun r => if r.id == run_id then f r else r) }

/-- Commit a mutation of the preview row with the given id. -/
def St.updatePreview (st : St) (id : Nat) (f : RunCostPreview → RunCostPreview) : St :=
  { st with previews := st.previews.map (fun p => if p.id == id then f p else p) }

/-- `sse_bus.publish(run_id, event, data)`. -/
def St.publish (st : St) (run_id : Nat) (kind : String) (payload : Json) : St :=
  { st with events := st.events ++ [⟨run_id, kind, payload⟩] }

/-- `db.add(result)` followed by commit. -/
def St.addResult (st : St) (r : Result) : St :=
  { st with results := st.results ++ [r] }

/-- `filepath.write_text(json.dumps(data))`. -/
def St.writeFile (st : St) (path : String) (content : Json) : St :=
  { st with files := st.files ++ [⟨path, content⟩] }

/-! ## Batch Runner (src/workers/runner.py) -/

/-- `_execute_single`: translate an `ExecutionResult` returned by the Executor
into a `Result` row.  Python `x or None` keeps a truthy value and stores NULL
otherwise; `response if not exec_result.error else None` keeps the response
only when the in-band error is falsy. -/
def _execute_single (run_id : Nat) (query : Query) (r : ExecutionResult) : Result :=
  { run_id := run_id
    query_id := query.id
    agent_response := if strTruthy r.error then none else some r.response
    tool_calls := if r.tool_calls = [] then none else some (.arr r.tool_calls)
    reasoning := if r.reasoning = [] then none else some (.arr r.reasoning)
    usage := if r.usage = [] then none else some (.obj r.usage)
    execution_time_seconds := some r.execution_time_seconds
    error := r.error }

/-- The `Result` persisted by the batch loop of `_execute_run_inner` for one
query: a gathered exception (`isinstance(res, Exception)`) becomes a Result
with `error=str(res)` and `execution_time_seconds=0`; a returned value is the
Result built by `_execute_single`. -/
def resultOfOutcome (run_id : Nat) (q : Query) : ExecOutcome → Result
  | .exn msg =>
    { run_id := run_id, query_id := q.id, agent_response := none,
      tool_calls := none, reasoning := none, usage := none,
      execution_time_seconds := some 0, error := some msg }
  | .ok r => _execute_single run_id q r

/-- The JSON object written by `_save_result_json` ("matching the existing
json/ folder format"): defaulted fields via Python `or`, and an `error` key
appended only when `result.error` is truthy. -/
def saveResultData (query : Query) (result : Result) : Json :=
  let data : List (String × Json) := [
    ("id", .str (toString query.ordinal)),
    ("query", .str query.query_text),
    ("expected_answer", .str query.expected_answer),
    ("agent_response", .str (result.agent_response.getD "")),
    ("tool_calls", jsonOrDefault result.tool_calls (.arr [])),
    ("reasoning", jsonOrDefault result.reasoning (.arr [])),
    ("usage", jsonOrDefault result.usage (.obj [])),
    ("execution_time_seconds", .num (result.execution_time_seconds.getD 0))]
  match result.error with
  | some e => if e ≠ "" then .obj (data ++ [("error", .str e)]) else .obj data
  | none => .obj data

/-- `_save_result_json`: write the artifact file. -/
def _save_result_json (st : St) (filepath : String) (query : Query) (result : Result) : St :=
  st.writeFile filepath (saveResultData query result)

/-- Does a JSON object carry the given key? -/
def Json.hasKey (j : Json) (k : String) : Bool :=
  match j with
  | .obj kvs => kvs.any (fun kv => kv.1 == k)
  | _ => false

/-- The artifact path `output_dir / "json" / f"{q.ordinal}.json"`. -/
def artifactPath (output_dir : String) (ordinal : Nat) : String :=
  output_dir ++ "/json/" ++ toString ordinal ++ ".json"

/-- The body of the `for q, res in zip(batch, results)` loop of
`_execute_run_inner`: persist the Result, increment and commit
`progress_current`, write the JSON artifact when the run has an output
directory, and publish the `progress` SSE event.  The Executor calls of the
batch are pure in this embedding (`exec q.id`), so gathering them up front and
consuming them here in original batch order coincide. -/
def persistResult (exec : ExecEnv) (run_id : Nat) (output_dir : Option String)
    (st : St) (q : Query) : St :=
  let result := resultOfOutcome run_id q (exec q.id)
  let st := st.addResult result
  let st := st.updateRun run_id
    (fun r => { r with progress_current := r.progress_current + 1 })
  let st :=
    match output_dir with
    | some d => _save_result_json st (artifactPath d q.ordinal) q result
    | none => st
  let cur : Nat := ((st.findRun run_id).map Run.progress_current).getD 0
  let tot : Nat := ((st.findRun run_id).map Run.progress_total).getD 0
  st.publish run_id "progress" (.obj [
    ("current", .num cur),
    ("total", .num tot),
    ("query_id", .num q.id),
    ("query_ordinal", .num q.ordinal),
    ("query_text", .str (q.query_text.take 100)),
    ("success", .bool (result.error = none)),
    ("time", match result.execution_time_seconds with
             | some t => .num t
             | none => .null)])

/-- `queries[i : i + batch_size]` slices produced by
`range(0, len(queries), batch_size)`, computed with fuel so evaluation is
structural.  Meaningful for `bs ≥ 1` (with `bs = 0` Python's `range` raises
before the loop runs; theorems assume `bs ≥ 1`). -/
def chunksGo (bs : Nat) : Nat → List α → List (List α)
  | _, [] => []
  | 0, _ :: _ => []
  | fuel + 1, x :: xs => (x :: xs).take bs :: chunksGo bs fuel ((x :: xs).drop bs)

/-- The list of consecutive batches of size `bs`. -/
def chunks (bs : Nat) (xs : List α) : List (List α) :=
  if bs = 0 then [] else chunksGo bs xs.length xs

/-- One decrement of the batch-boundary countdown at which the external
`cancel_run` write becomes visible; once visible (`some 0`) it stays visible. -/
def decrCancel : Option Nat → Option Nat
  | none => none
  | some 0 => some 0
  | some (c + 1) => some c

/-- `n` decrements of the cancel countdown at once (what a loop over `n`
batches applies when the cancellation is not yet visible). -/
def subCancel (cancelAt : Option Nat) (n : Nat) : Option Nat :=
  match cancelAt with
  | none => none
  | some c => some (c - n)

/-- The batch loop of `_execute_run_inner`, recursing over the precomputed
batches.  `cancelAt = some c` means the `cancel_run` commit (status
`"cancelled"`, `completed_at` stamped at `cancel_time`) becomes visible at the
`db.refresh(run)` of batch boundary `c`; the refresh is the first point the
runner can see it, so the write is applied to the store there.  Returns the
final store, whether the loop returned early on an observed cancellation, and
the remaining countdown (consulted again by the final refresh). -/
def runBatches (exec : ExecEnv) (run_id : Nat) (output_dir : Option String)
    (cancel_time : Int) :
    Option Nat → List (List Query) → St → St × Bool × Option Nat
  | cancelAt, [], st => (st, false, cancelAt)
  | cancelAt, batch :: rest, st =>
    if cancelAt = some 0 then
      let st := st.updateRun run_id
        (fun r => { r with status := "cancelled", completed_at := some cancel_time })
      (st.publish run_id "complete" (.obj [("status", .str "cancelled")]), true, some 0)
    else
      runBatches exec run_id output_dir cancel_time (decrCancel cancelAt) rest
        (batch.foldl (persistResult exec run_id output_dir) st)

/-- `select(Query).where(Query.id.in_(query_ids)).order_by(Query.ordinal)`. -/
def loadQueries (table : List Query) (query_ids : List Nat) : List Query :=
  List.insertionSort (fun a b => a.ordinal ≤ b.ordinal)
    (table.filter (fun q => query_ids.contains q.id))

/-- Lines 49-61 of `_execute_run_inner`: mark the run `running`, stamp
`started_at`, commit, publish the `status` event (directory creation has no
store effect). -/
def runSetup (run_id : Nat) (now : Int) (st : St) : St :=
  (st.updateRun run_id
    (fun r => { r with status := "running", started_at := some now })).publish
    run_id "status" (.obj [("status", .str "running")])

/-- Lines 65-70 of `_execute_run_inner`: missing agent config is fatal. -/
def agentMissingPath (run_id : Nat) (st : St) : St :=
  (st.updateRun run_id
    (fun r =>
      { r with
        status := "failed"
        error_message := some "Agent config not found" })).publish
    run_id "error" (.obj [("message", .str "Agent config not found")])

/-- Lines 127-138 of `_execute_run_inner`: final refresh (`remaining = some 0`
means the external cancel write became visible only now), mark `completed` if
still `running`, publish the final `complete` event. -/
def runFinalize (run_id : Nat) (done_time cancel_time : Int)
    (remaining : Option Nat) (st : St) : St :=
  let st :=
    if remaining = some 0 then
      st.updateRun run_id
        (fun r => { r with status := "cancelled", completed_at := some cancel_time })
    else st
  let st :=
    match st.findRun run_id with
    | some r =>
      if r.status = "running" then
        st.updateRun run_id
          (fun r => { r with status := "completed", completed_at := some done_time })
      else st
    | none => st
  match st.findRun run_id with
  | some r =>
    st.publish run_id "complete" (.obj [
      ("status", .str r.status),
      ("current", .num r.progress_current),
      ("total", .num r.progress_total)])
  | none => st

/-- `_execute_run_inner`: drive one run from `pending` to a terminal status.
`now` is the `started_at` stamp, `done_time` the `completed_at` stamp of a
completed run, and `cancel_time`/`cancelAt` describe the external cancel
action as in `runBatches` (`cancelAt = none`: the run is never cancelled). -/
def _execute_run_inner (exec : ExecEnv) (run_id : Nat) (query_ids : List Nat)
    (batch_size : Nat) (now done_time cancel_time : Int) (cancelAt : Option Nat)
    (st : St) : St :=
  match st.findRun run_id with
  | none => st
  | some run₀ =>
    let st := runSetup run_id now st
    match st.findAgent run₀.agent_config_id with
    | none => agentMissingPath run_id st
    | some _agent =>
      let queries := loadQueries st.queries query_ids
      let (st, cancelled, remaining) :=
        runBatches exec run_id run₀.output_dir cancel_time cancelAt
          (chunks batch_size queries) st
      if cancelled then st
      else runFinalize run_id done_time cancel_time remaining st

/-! ## Run API (src/api/runs.py) -/

/-- `fastapi.HTTPException(code, detail)`. -/
structure HttpError where
  code : Nat
  detail : String
deriving DecidableEq

/-- The `RunCreate` request body (src/schemas/schemas.py). -/
structure RunCreate where
  suite_id : Nat
  agent_config_id : Nat
  label : String
  tags : List String
  batch_size : Nat
  query_ids : Option (List Nat)
  output_dir : Option String
  «repeat» : Nat
deriving DecidableEq

/-- Python truthiness of an optional list (`if body.query_ids:`). -/
def listTruthy {α : Type} (l : Option (List α)) : Bool :=
  match l with
  | none => false
  | some l => !l.isEmpty

/-- `get_settings().OUTPUT_BASE_DIR` (src/config.py). -/
def OUTPUT_BASE_DIR : String := "~/akd_data"

/-- `_normalize_output_dir`. -/
def _normalize_output_dir (body : RunCreate) : String :=
  let safe_label := (body.label.replace " " "_").replace "/" "_"
  if strTruthy body.output_dir then body.output_dir.getD ""
  else OUTPUT_BASE_DIR ++ "/" ++ safe_label

/-- `_resolve_run_inputs`: validate suite, agent and the query selection. -/
def _resolve_run_inputs (body : RunCreate) (st : St) :
    Except HttpError (BenchmarkSuite × AgentConfig × List Query × List Nat) :=
  match st.findSuite body.suite_id with
  | none => .error ⟨404, "Suite not found"⟩
  | some suite =>
    match st.findAgent body.agent_config_id with
    | none => .error ⟨404, "Agent config not found"⟩
    | some agent =>
      let queries :=
        if listTruthy body.query_ids then
          st.queries.filter (fun q =>
            (body.query_ids.getD []).contains q.id && q.suite_id == body.suite_id)
        else
          st.queries.filter (fun q => q.suite_id == body.suite_id)
      if queries = [] then .error ⟨400, "No queries found for this suite"⟩
      else .ok (suite, agent, queries, queries.map Query.id)

/-- One scheduled detached Batch Runner task
(`asyncio.create_task(_start_run_job(run.id, query_ids, batch_size))`). -/
structure ScheduledRunJob where
  run_id : Nat
  query_ids : List Nat
  batch_size : Nat
deriving DecidableEq

/-- `_create_runs`: materialize `max(1, repeat)` Run rows (sharing a generated
`run_group` when `repeat > 1`) and schedule one Batch Runner task per run.
`group_id` stands for `str(uuid.uuid4())[:12]`, `next_id` for the primary keys
handed out by the database (run `i` gets `next_id + i`), `now` for the
`created_at` server default. -/
def _create_runs (body : RunCreate) (query_ids : List Nat) (query_count : Nat)
    (group_id : String) (next_id : Nat) (now : Int) (st : St) :
    List Run × St × List ScheduledRunJob :=
  let repeat_n := max 1 body.«repeat»
  let run_group := if repeat_n > 1 then some group_id else none
  let base_dir := _normalize_output_dir body
  let created_runs := (List.range repeat_n).map (fun i =>
    let run_num := i + 1
    let label :=
      if repeat_n > 1 then
        body.label ++ " (" ++ toString run_num ++ "/" ++ toString repeat_n ++ ")"
      else body.label
    let output_dir :=
      if repeat_n > 1 then base_dir ++ "/run_" ++ toString run_num else base_dir
    ({ id := next_id + i, suite_id := body.suite_id,
       agent_config_id := body.agent_config_id, label := label,
       run_group := run_group, run_number := run_num, status := "pending",
       progress_current := 0, progress_total := query_count,
       batch_size := body.batch_size, error_message := none,
       output_dir := some output_dir, tags := body.tags, started_at := none,
       completed_at := none, created_at := now } : Run))
  let st := { st with runs := st.runs ++ created_runs }
  (created_runs, st,
   created_runs.map (fun r => ⟨r.id, query_ids, body.batch_size⟩))

/-- Does a `(suite, agent)` pair have a `completed` cost preview with non-null
`approved_at`?  (The admission-control query of `create_run`.) -/
def approvedPreviewExists (st : St) (suite_id agent_config_id : Nat) : Bool :=
  st.previews.any (fun p =>
    p.suite_id == suite_id && p.agent_config_id == agent_config_id &&
    p.status == "completed" && p.approved_at.isSome)

/-- `create_run` (`POST /runs`): resolve inputs, apply admission control for
large metered runs, then create and schedule the runs. -/
def create_run (body : RunCreate) (group_id : String) (next_id : Nat)
    (now : Int) (st : St) :
    Except HttpError (List Run × St × List ScheduledRunJob) :=
  match _resolve_run_inputs body st with
  | .error e => .error e
  | .ok (_, agent, queries, query_ids) =>
    if agent.executor_type = "openai_agents" ∧ queries.length > 3 then
      if approvedPreviewExists st body.suite_id body.agent_config_id then
        .ok (_create_runs body query_ids queries.length group_id next_id now st)
      else
        .error ⟨400,
          "Runs with more than 3 queries require a completed and approved cost preview for this dataset/agent."⟩
    else
      .ok (_create_runs body query_ids queries.length group_id next_id now st)

/-- `cancel_run` (`POST /runs/{run_id}/cancel`): flip a pending or running run
to `cancelled` and stamp `completed_at`. -/
def cancel_run (run_id : Nat) (now : Int) (st : St) : Except HttpError (Run × St) :=
  match st.findRun run_id with
  | none => .error ⟨404, "Run not found"⟩
  | some run =>
    if run.status = "pending" ∨ run.status = "running" then
      .ok ({ run with status := "cancelled", completed_at := some now },
           st.updateRun run_id
             (fun r => { r with status := "cancelled", completed_at := some now }))
    else .error ⟨400, "Run cannot be cancelled"⟩

/-- The `RunCreate` body reconstructed from a stored preview
(shared by `_start_cost_preview_job` and `approve_preview_and_start`). -/
def bodyOfPreview (preview : RunCostPreview) : RunCreate :=
  { suite_id := preview.suite_id
    agent_config_id := preview.agent_config_id
    label := preview.label
    tags := preview.tags
    batch_size := preview.batch_size
    query_ids := some preview.query_ids
    output_dir := preview.output_dir
    «repeat» := preview.«repeat» }

/-- `approve_preview_and_start`
(`POST /runs/cost-preview/{preview_id}/approve-and-start`): on a `completed`,
not-yet-consumed preview, re-validate the inputs, require the metered executor
type, create the runs, then stamp `approved_at` and `consumed_at` to the same
timestamp.  Every `.error` branch happens before any store mutation. -/
def approve_preview_and_start (preview_id : Nat) (group_id : String)
    (next_id : Nat) (now : Int) (st : St) :
    Except HttpError (List Run × St × List ScheduledRunJob) :=
  match st.findPreview preview_id with
  | none => .error ⟨404, "Cost preview not found"⟩
  | some preview =>
    if preview.status ≠ "completed" then
      .error ⟨400, "Cost preview is not ready yet (status=" ++ preview.status ++ ")"⟩
    else if preview.consumed_at.isSome then
      .error ⟨400, "Cost preview already consumed"⟩
    else
      match _resolve_run_inputs (bodyOfPreview preview) st with
      | .error e => .error e
      | .ok (_, agent, queries, query_ids) =>
        if agent.executor_type ≠ "openai_agents" then
          .error ⟨400, "Cost preview approvals are only valid for openai_agents executor"⟩
        else
          let (created_runs, st, scheduled) :=
            _create_runs (bodyOfPreview preview) query_ids queries.length
              group_id next_id now st
          let st := st.updatePreview preview_id
            (fun p => { p with approved_at := some now, consumed_at := some now })
          .ok (created_runs, st, scheduled)

/-- `retry_cost_preview` (`POST /runs/cost-preview/{preview_id}/retry`):
re-queue a non-running preview, resetting its outcome fields and re-scheduling
the sampler job (the returned `Option Nat` is the scheduled preview id). -/
def retry_cost_preview (preview_id : Nat) (now : Int) (st : St) :
    Except HttpError (RunCostPreview × St × Option Nat) :=
  match st.findPreview preview_id with
  | none => .error ⟨404, "Cost preview not found"⟩
  | some preview =>
    if preview.status = "running" then
      .error ⟨400, "Cost preview is already running"⟩
    else
      let reset := fun (p : RunCostPreview) =>
        { p with status := "running", error_message := none,
                 started_at := some now, completed_at := none,
                 sample_usage := Json.obj [], sample_cost_usd := 0,
                 estimated_total_cost_usd := 0 }
      .ok (reset preview, st.updatePreview preview_id reset, some preview_id)

/-- The rows matched by the stale-`running` recovery query of
`_enqueue_pending_previews`: status `running`, non-null `started_at`, null
`completed_at`, ordered by `started_at` ascending, `limit 20`. -/
def staleCandidates (previews : List RunCostPreview) : List RunCostPreview :=
  (List.insertionSort (fun a b => a.started_at.getD 0 ≤ b.started_at.getD 0)
    (previews.filter (fun p =>
      p.status == "running" && p.started_at.isSome && p.completed_at.isNone))).take 20

/-- `started and started.timestamp() < now - 15 * 60`. -/
def isStale (now : Int) (p : RunCostPreview) : Bool :=
  match p.started_at with
  | some t => t < now - 15 * 60
  | none => false

/-- The explanatory message written to recovered previews. -/
def staleRecoveryMessage : String :=
  "Recovered stale background job; re-queued automatically."

/-- Phase (a) of `_enqueue_pending_previews`: previews among the candidate
rows whose `started_at` is older than 15 minutes are reset to `pending` with
an explanatory message. -/
def resetStaleRunning (now : Int) (st : St) : St :=
  let cand := staleCandidates st.previews
  { st with previews := st.previews.map (fun p =>
      if cand.any (fun c => c.id == p.id) && isStale now p then
        { p with status := "pending", error_message := some staleRecoveryMessage }
      else p) }

/-- Phase (b) of `_enqueue_pending_previews`: up to 20 `pending` previews
(oldest `created_at` first) are flipped to `running` (`started_at` kept if
already set, else stamped `now`) and their sampler jobs scheduled. -/
def drainPending (now : Int) (st : St) : St × List Nat :=
  let pending :=
    (List.insertionSort (fun a b => a.created_at ≤ b.created_at)
      (st.previews.filter (fun p => p.status == "pending"))).take 20
  if pending = [] then (st, [])
  else
    ({ st with previews := st.previews.map (fun p =>
        if pending.any (fun c => c.id == p.id) then
          { p with status := "running", started_at := some (p.started_at.getD now) }
        else p) },
     pending.map (fun p => p.id))

/-- `_enqueue_pending_previews`: recover orphaned `running` previews, then
drain the `pending` queue (the returned list is the scheduled preview ids). -/
def _enqueue_pending_previews (now : Int) (st : St) : St × List Nat :=
  drainPending now (resetStaleRunning now st)

/-- `list_cost_previews` (`GET /runs/cost-preview`): opportunistically drain
the preview queue, then return up to `min(max(limit, 1), 500)` previews,
newest `created_at` first. -/
def list_cost_previews (limit : Nat) (now : Int) (st : St) :
    St × List Nat × List RunCostPreview :=
  let (st, scheduled) := _enqueue_pending_previews now st
  let q := min (max limit 1) 500
  (st, scheduled,
   (List.insertionSort (fun a b => b.created_at ≤ a.created_at) st.previews).take q)

/-! ## Concurrency protocol of `execute_run` (src/workers/runner.py lines 18-39)

`_run_semaphore = asyncio.Semaphore(3)` is acquired around the whole of
`_execute_run_inner`.  We model the interleaved execution of any number of
`execute_run` tasks as a transition system: each task advances through the
phases of the code (waiting on the semaphore; holding it before the first
commit; executing with its run marked `"running"`; done with the slot
released), and an external `cancel_run` can flip a pending/running status at
any point.  Every *return* path of `_execute_run_inner` commits a terminal
non-`"running"` status before the `async with` block releases the slot
(transition `finish`).  But `_execute_run_inner` can also *raise* after the
`run.status = "running"` commit at line 51 — `output_dir.mkdir` at line 57
can raise `OSError`, and `get_executor(agent_config.executor_type)` at line
72 raises `ValueError` when the executor type is unregistered (agent creation
never validates it) — and then the exception propagates out of
`async with _run_semaphore`, releasing the slot while the run row still reads
`"running"` (transition `raiseInner`).  Only afterwards does the `except`
block of `execute_run` (lines 28-37) open a fresh session and repair a
pending/running status to `"failed"` (transition `repairFailed`); if that
repair itself raises, the inner `except` at lines 38-39 only logs, and the
row keeps its `"running"` status with no task attached (transition
`repairLost`). -/

/-- Phase of one `execute_run` task relative to the global semaphore. -/
inductive Phase where
  /-- created, not yet admitted by the semaphore -/
  | waiting
  /-- inside `async with _run_semaphore`, before the first commit -/
  | holding
  /-- inside `_execute_run_inner`, after the `run.status = "running"` commit -/
  | executing
  /-- `_execute_run_inner` raised: the slot is already released, but the
  `except` block of `execute_run` has not committed its repair yet -/
  | repairing
  /-- the task is over: normal return, or crash with the repair committed -/
  | done
  /-- the task is over, but the repair commit itself raised (lines 38-39) -/
  | abandoned
deriving DecidableEq

/-- One scheduled `execute_run` task together with the status of its run row. -/
structure RunTask where
  run_id : Nat
  phase : Phase
  status : String
deriving DecidableEq

/-- Semaphore slots in use: tasks inside the `async with _run_semaphore`
block. -/
def slotsUsed (ts : List RunTask) : Nat :=
  ts.countP (fun t => t.phase == .holding || t.phase == .executing)

/-- Number of runs currently in status `"running"`. -/
def runningCount (ts : List RunTask) : Nat :=
  ts.countP (fun t => t.status == "running")

/-- Tasks that crashed out of `_execute_run_inner`: the semaphore slot is
already released, but the `except`-block repair of `execute_run` has not
committed (phase `repairing`) or never will (phase `abandoned`). -/
def crashedCount (ts : List RunTask) : Nat :=
  ts.countP (fun t => t.phase == Phase.repairing || t.phase == Phase.abandoned)

/-- Interleaving steps of the `execute_run` tasks and the external cancel
action. -/
inductive SchedStep : List RunTask → List RunTask → Prop
  /-- `async with _run_semaphore:` — admitted only while fewer than 3 tasks
  hold the semaphore. -/
  | acquire (l r : List RunTask) (t : RunTask) (hp : t.phase = .waiting)
      (hs : slotsUsed (l ++ t :: r) < 3) :
      SchedStep (l ++ t :: r) (l ++ { t with phase := .holding } :: r)
  /-- The first commit of `_execute_run_inner`: `run.status = "running"`. -/
  | markRunning (l r : List RunTask) (t : RunTask) (hp : t.phase = .holding) :
      SchedStep (l ++ t :: r) (l ++ { t with phase := .executing, status := "running" } :: r)
  /-- `_execute_run_inner` returns: every return path has committed a terminal
  (non-`"running"`) status, and leaving the `async with` releases the slot. -/
  | finish (l r : List RunTask) (t : RunTask) (s' : String)
      (hp : t.phase = .executing) (hs : s' ≠ "running") :
      SchedStep (l ++ t :: r) (l ++ { t with phase := .done, status := s' } :: r)
  /-- `_execute_run_inner` raises (e.g. `mkdir` at line 57 or `get_executor`
  at line 72, both possibly after the `"running"` commit): the exception
  leaves `async with _run_semaphore`, releasing the slot with the run row
  left in whatever status was last committed — possibly `"running"`. -/
  | raiseInner (l r : List RunTask) (t : RunTask)
      (hp : t.phase = .holding ∨ t.phase = .executing) :
      SchedStep (l ++ t :: r) (l ++ { t with phase := .repairing } :: r)
  /-- The `except` block of `execute_run` (lines 28-37): with the slot
  already free, it re-reads the run and commits status `"failed"` if the
  status is still `pending` or `running`, leaving it unchanged otherwise. -/
  | repairFailed (l r : List RunTask) (t : RunTask) (hp : t.phase = .repairing) :
      SchedStep (l ++ t :: r)
        (l ++ { t with phase := .done, status := if t.status = "pending" ∨ t.status = "running" then "failed" else t.status } :: r)
  /-- The repair commit itself raises (inner `except` at lines 38-39 only
  logs): the run row keeps its last committed status forever. -/
  | repairLost (l r : List RunTask) (t : RunTask) (hp : t.phase = .repairing) :
      SchedStep (l ++ t :: r) (l ++ { t with phase := .abandoned } :: r)
  /-- External `cancel_run`: a pending or running run flips to `"cancelled"`. -/
  | cancel (l r : List RunTask) (t : RunTask)
      (hp : t.status = "pending" ∨ t.status = "running") :
      SchedStep (l ++ t :: r) (l ++ { t with status := "cancelled" } :: r)

/-- Freshly scheduled tasks: all waiting, all runs `pending`. -/
def initTasks (run_ids : List Nat) : List RunTask :=
  run_ids.map (fun id => ⟨id, .waiting, "pending"⟩)

/-- Reachability under interleaved scheduler steps. -/
def SchedReachable (run_ids : List Nat) (ts : List RunTask) : Prop :=
  Relation.ReflTransGen SchedStep (initTasks run_ids) ts

/-! ## Proofs about the concurrency protocol -/

/-- Inductive invariant of the scheduler: at most 3 semaphore slots are in
use, and a run is `"running"` only while its task is inside
`_execute_run_inner` holding a slot, or after its task crashed out of
`_execute_run_inner` (slot already released) with the failed-status repair
still pending or lost. -/
def SchedInv (ts : List RunTask) : Prop :=
  slotsUsed ts ≤ 3 ∧
    ∀ t ∈ ts, t.status = "running" →
      t.phase = Phase.executing ∨ t.phase = Phase.repairing ∨ t.phase = Phase.abandoned

lemma schedInv_init (run_ids : List Nat) : SchedInv (initTasks run_ids) := by
  constructor
  · have h0 : slotsUsed (initTasks run_ids) = 0 := by
      apply List.countP_eq_zero.mpr
      intro t ht
      simp only [initTasks, List.mem_map] at ht
      obtain ⟨id, _, rfl⟩ := ht
      simp
    omega
  · intro t ht hs
    simp [initTasks, List.mem_map] at ht
    obtain ⟨id, _, rfl⟩ := ht
    simp at hs

lemma schedInv_step {ts ts' : List RunTask} (h : SchedStep ts ts')
    (hinv : SchedInv ts) : SchedInv ts' := by
  obtain ⟨hslots, hrun⟩ := hinv
  cases h with
  | acquire l r t hp hs =>
    constructor
    · simp only [slotsUsed, List.countP_append, List.countP_cons] at hs ⊢
      simp only [hp] at hs ⊢
      simp at hs ⊢
      omega
    · intro t' ht' hst'
      rcases List.mem_append.mp ht' with h' | h'
      · exact hrun t' (List.mem_append.mpr (.inl h')) hst'
      · rcases List.mem_cons.mp h' with rfl | h'
        · exfalso
          rcases hrun t (by simp) hst' with he | he | he <;>
            (rw [hp] at he; exact Phase.noConfusion he)
        · exact hrun t' (by simp [h']) hst'
  | markRunning l r t hp =>
    constructor
    · simp only [slotsUsed, List.countP_append, List.countP_cons] at hslots ⊢
      simp only [hp] at hslots ⊢
      simp at hslots ⊢
      omega
    · intro t' ht' hst'
      rcases List.mem_append.mp ht' with h' | h'
      · exact hrun t' (List.mem_append.mpr (.inl h')) hst'
      · rcases List.mem_cons.mp h' with rfl | h'
        · exact Or.inl rfl
        · exact hrun t' (by simp [h']) hst'
  | finish l r t s' hp hs =>
    constructor
    · simp only [slotsUsed, List.countP_append, List.countP_cons] at hslots ⊢
      simp only [hp] at hslots ⊢
      simp at hslots ⊢
      omega
    · intro t' ht' hst'
      rcases List.mem_append.mp ht' with h' | h'
      · exact hrun t' (List.mem_append.mpr (.inl h')) hst'
      · rcases List.mem_cons.mp h' with rfl | h'
        · exact absurd hst' hs
        · exact hrun t' (by simp [h']) hst'
  | raiseInner l r t hp =>
    constructor
    · simp only [slotsUsed, List.countP_append, List.countP_cons] at hslots ⊢
      rcases hp with hp | hp <;> simp only [hp] at hslots ⊢ <;> simp at hslots ⊢ <;> omega
    · intro t' ht' hst'
      rcases List.mem_append.mp ht' with h' | h'
      · exact hrun t' (List.mem_append.mpr (.inl h')) hst'
      · rcases List.mem_cons.mp h' with rfl | h'
        · exact Or.inr (Or.inl rfl)
        · exact hrun t' (by simp [h']) hst'
  | repairFailed l r t hp =>
    constructor
    · simp only [slotsUsed, List.countP_append, List.countP_cons] at hslots ⊢
      simp only [hp] at hslots ⊢
      simp at hslots ⊢
      omega
    · intro t' ht' hst'
      rcases List.mem_append.mp ht' with h' | h'
      · exact hrun t' (List.mem_append.mpr (.inl h')) hst'
      · rcases List.mem_cons.mp h' with rfl | h'
        · exfalso
          by_cases hc : t.status = "pending" ∨ t.status = "running"
          · rw [show ({ t with phase := Phase.done, status := if t.status = "pending" ∨ t.status = "running" then "failed" else t.status } : RunTask).status = if t.status = "pending" ∨ t.status = "running" then "failed" else t.status from rfl, if_pos hc] at hst'
            simp at hst'
          · rw [show ({ t with phase := Phase.done, status := if t.status = "pending" ∨ t.status = "running" then "failed" else t.status } : RunTask).status = if t.status = "pending" ∨ t.status = "running" then "failed" else t.status from rfl, if_neg hc] at hst'
            exact hc (Or.inr hst')
        · exact hrun t' (by simp [h']) hst'
  | repairLost l r t hp =>
    constructor
    · simp only [slotsUsed, List.countP_append, List.countP_cons] at hslots ⊢
      simp only [hp] at hslots ⊢
      simp at hslots ⊢
      omega
    · intro t' ht' hst'
      rcases List.mem_append.mp ht' with h' | h'
      · exact hrun t' (List.mem_append.mpr (.inl h')) hst'
      · rcases List.mem_cons.mp h' with rfl | h'
        · exact Or.inr (Or.inr rfl)
        · exact hrun t' (by simp [h']) hst'
  | cancel l r t hp =>
    constructor
    · simp only [slotsUsed, List.countP_append, List.countP_cons] at hslots ⊢
      exact hslots
    · intro t' ht' hst'
      rcases List.mem_append.mp ht' with h' | h'
      · exact hrun t' (List.mem_append.mpr (.inl h')) hst'
      · rcases List.mem_cons.mp h' with rfl | h'
        · simp at hst'
        · exact hrun t' (by simp [h']) hst'

lemma schedInv_reachable {run_ids : List Nat} {ts : List RunTask}
    (h : SchedReachable run_ids ts) : SchedInv ts := by
  induction h with
  | refl => exact schedInv_init run_ids
  | tail _ hstep ih => exact schedInv_step hstep ih

/-- A count by `p` is bounded by the counts of `q` and `r` together when every
element satisfying `p` satisfies `q` or `r`. -/
lemma countP_le_countP_add_countP {α : Type} (p q r : α → Bool) (l : List α)
    (h : ∀ a ∈ l, p a = true → q a = true ∨ r a = true) :
    l.countP p ≤ l.countP q + l.countP r := by
  induction l with
  | nil => simp
  | cons a l ih =>
    have ihl := ih (fun x hx hp => h x (List.mem_cons_of_mem a hx) hp)
    by_cases hp : p a = true
    · rcases h a (List.mem_cons_self a l) hp with hc | hc
      · by_cases hr : r a = true <;> simp [List.countP_cons, hp, hc, hr] <;> omega
      · by_cases hq : q a = true <;> simp [List.countP_cons, hp, hc, hq] <;> omega
    · by_cases hq : q a = true <;> by_cases hr : r a = true <;>
        simp [List.countP_cons, hp, hq, hr] <;> omega

/-- A reachable scheduler state with four runs in status `"running"` at the
same time: run 1 crashed out of `_execute_run_inner` right after its
`"running"` commit (its slot is released, the `except`-block repair has not
committed), and runs 2-4 then occupy the three semaphore slots. -/
def exCrashTasks : List RunTask :=
  [⟨1, .repairing, "running"⟩, ⟨2, .executing, "running"⟩,
   ⟨3, .executing, "running"⟩, ⟨4, .executing, "running"⟩]

/-- C4 is refuted by the exception path of `execute_run`: the semaphore is
released when `_execute_run_inner` raises (e.g. `get_executor` `ValueError`
at line 72, or `mkdir` `OSError` at line 57, both after the `"running"`
commit at lines 49-51), *before* the `except` block repairs the status to
`"failed"`; in that window a fourth waiting task can acquire the freed slot
and mark its run `running`, so a state with 4 runs in status `"running"`
simultaneously is reachable. -/
theorem running_cap_exceeded_counterexample :
    SchedReachable [1, 2, 3, 4] exCrashTasks ∧ 3 < runningCount exCrashTasks := by
  constructor
  · have s0 : SchedReachable [1, 2, 3, 4]
        [⟨1, .waiting, "pending"⟩, ⟨2, .waiting, "pending"⟩,
         ⟨3, .waiting, "pending"⟩, ⟨4, .waiting, "pending"⟩] :=
      Relation.ReflTransGen.refl
    have s1 : SchedReachable [1, 2, 3, 4]
        [⟨1, .holding, "pending"⟩, ⟨2, .waiting, "pending"⟩,
         ⟨3, .waiting, "pending"⟩, ⟨4, .waiting, "pending"⟩] :=
      s0.tail (SchedStep.acquire []
        [⟨2, .waiting, "pending"⟩, ⟨3, .waiting, "pending"⟩, ⟨4, .waiting, "pending"⟩]
        ⟨1, .waiting, "pending"⟩ rfl (by decide))
    have s2 : SchedReachable [1, 2, 3, 4]
        [⟨1, .executing, "running"⟩, ⟨2, .waiting, "pending"⟩,
         ⟨3, .waiting, "pending"⟩, ⟨4, .waiting, "pending"⟩] :=
      s1.tail (SchedStep.markRunning []
        [⟨2, .waiting, "pending"⟩, ⟨3, .waiting, "pending"⟩, ⟨4, .waiting, "pending"⟩]
        ⟨1, .holding, "pending"⟩ rfl)
    have s3 : SchedReachable [1, 2, 3, 4]
        [⟨1, .repairing, "running"⟩, ⟨2, .waiting, "pending"⟩,
         ⟨3, .waiting, "pending"⟩, ⟨4, .waiting, "pending"⟩] :=
      s2.tail (SchedStep.raiseInner []
        [⟨2, .waiting, "pending"⟩, ⟨3, .waiting, "pending"⟩, ⟨4, .waiting, "pending"⟩]
        ⟨1, .executing, "running"⟩ (Or.inr rfl))
    have s4 : SchedReachable [1, 2, 3, 4]
        [⟨1, .repairing, "running"⟩, ⟨2, .holding, "pending"⟩,
         ⟨3, .waiting, "pending"⟩, ⟨4, .waiting, "pending"⟩] :=
      s3.tail (SchedStep.acquire [⟨1, .repairing, "running"⟩]
        [⟨3, .waiting, "pending"⟩, ⟨4, .waiting, "pending"⟩]
        ⟨2, .waiting, "pending"⟩ rfl (by decide))
    have s5 : SchedReachable [1, 2, 3, 4]
        [⟨1, .repairing, "running"⟩, ⟨2, .executing, "running"⟩,
         ⟨3, .waiting, "pending"⟩, ⟨4, .waiting, "pending"⟩] :=
      s4.tail (SchedStep.markRunning [⟨1, .repairing, "running"⟩]
        [⟨3, .waiting, "pending"⟩, ⟨4, .waiting, "pending"⟩]
        ⟨2, .holding, "pending"⟩ rfl)
    have s6 : SchedReachable [1, 2, 3, 4]
        [⟨1, .repairing, "running"⟩, ⟨2, .executing, "running"⟩,
         ⟨3, .holding, "pending"⟩, ⟨4, .waiting, "pending"⟩] :=
      s5.tail (SchedStep.acquire
        [⟨1, .repairing, "running"⟩, ⟨2, .executing, "running"⟩]
        [⟨4, .waiting, "pending"⟩]
        ⟨3, .waiting, "pending"⟩ rfl (by decide))
    have s7 : SchedReachable [1, 2, 3, 4]
        [⟨1, .repairing, "running"⟩, ⟨2, .executing, "running"⟩,
         ⟨3, .executing, "running"⟩, ⟨4, .waiting, "pending"⟩] :=
      s6.tail (SchedStep.markRunning
        [⟨1, .repairing, "running"⟩, ⟨2, .executing, "running"⟩]
        [⟨4, .waiting, "pending"⟩]
        ⟨3, .holding, "pending"⟩ rfl)
    have s8 : SchedReachable [1, 2, 3, 4]
        [⟨1, .repairing, "running"⟩, ⟨2, .executing, "running"⟩,
         ⟨3, .executing, "running"⟩, ⟨4, .holding, "pending"⟩] :=
      s7.tail (SchedStep.acquire
        [⟨1, .repairing, "running"⟩, ⟨2, .executing, "running"⟩,
         ⟨3, .executing, "running"⟩] []
        ⟨4, .waiting, "pending"⟩ rfl (by decide))
    exact s8.tail (SchedStep.markRunning
      [⟨1, .repairing, "running"⟩, ⟨2, .executing, "running"⟩,
       ⟨3, .executing, "running"⟩] []
      ⟨4, .holding, "pending"⟩ rfl)
  · decide

/-- C4 (amended): a run is marked `running` only after its task acquired one
of the 3 semaphore slots, so at most 3 runs whose task still holds a slot
inside `_execute_run_inner` are in status `"running"` simultaneously; but
because the semaphore is released before the `except`-block repair of
`execute_run` commits, the total number of runs in status `"running"` in a
reachable state is bounded only by 3 plus the number of tasks that crashed
out of `_execute_run_inner` with the failed-status repair pending or lost —
not by 3 unconditionally, as `running_cap_exceeded_counterexample` shows. -/
theorem running_runs_bounded_by_slots (run_ids : List Nat) (ts : List RunTask)
    (h : SchedReachable run_ids ts) :
    ts.countP (fun t => t.status == "running" && t.phase == Phase.executing) ≤ 3 ∧
      runningCount ts ≤ 3 + crashedCount ts := by
  obtain ⟨hslots, hrun⟩ := schedInv_reachable h
  have hexec : ts.countP (fun t => t.status == "running" && t.phase == Phase.executing)
      ≤ slotsUsed ts := by
    simp only [slotsUsed]
    apply List.countP_mono_left
    intro t ht hp
    simp only [Bool.and_eq_true, beq_iff_eq] at hp
    simp [hp.2]
  have h3 := le_trans hexec hslots
  refine ⟨h3, ?_⟩
  have himp : ∀ t ∈ ts, (t.status == "running") = true →
      (t.status == "running" && t.phase == Phase.executing) = true ∨
        (t.phase == Phase.repairing || t.phase == Phase.abandoned) = true := by
    intro t ht hp
    have hst : t.status = "running" := by simpa using hp
    rcases hrun t ht hst with he | he | he
    · left
      simp [hst, he]
    · right
      simp [he]
    · right
      simp [he]
  have hsplit := countP_le_countP_add_countP
    (fun t => t.status == "running")
    (fun t => t.status == "running" && t.phase == Phase.executing)
    (fun t => t.phase == Phase.repairing || t.phase == Phase.abandoned) ts himp
  simp only [runningCount, crashedCount]
  omega

/-- Witness for the amended C4 bound: five concurrently scheduled runs,
evaluated at the initial reachable state. -/
theorem running_runs_bounded_by_slots_witness :
    SchedReachable [1, 2, 3, 4, 5] (initTasks [1, 2, 3, 4, 5]) ∧
      ((initTasks [1, 2, 3, 4, 5]).countP
          (fun t => t.status == "running" && t.phase == Phase.executing) ≤ 3 ∧
        runningCount (initTasks [1, 2, 3, 4, 5])
          ≤ 3 + crashedCount (initTasks [1, 2, 3, 4, 5])) :=
  ⟨Relation.ReflTransGen.refl,
   running_runs_bounded_by_slots [1, 2, 3, 4, 5] _ Relation.ReflTransGen.refl⟩

/-! ## Store lemmas -/

/-- `find?` through a keyed in-place update, when the update preserves the
key and the lookup uses the same key. -/
lemma find?_update_self {α : Type} (key : α → Nat) (id : Nat) (g : α → α)
    (hg : ∀ a, key (g a) = key a) (l : List α) :
    (l.map (fun x => if key x == id then g x else x)).find? (fun x => key x == id)
      = (l.find? (fun x => key x == id)).map g := by
  induction l with
  | nil => rfl
  | cons b l ih =>
    by_cases hb : (key b == id) = true
    · have hgb : (key (g b) == id) = true := by rw [hg b]; exact hb
      rw [List.map_cons, if_pos hb,
        @List.find?_cons_of_pos _ (fun x => key x == id) (g b) _ hgb,
        @List.find?_cons_of_pos _ (fun x => key x == id) b _ hb, Option.map_some']
    · rw [List.map_cons, if_neg hb,
        @List.find?_cons_of_neg _ (fun x => key x == id) b _ hb,
        @List.find?_cons_of_neg _ (fun x => key x == id) b _ hb]
      exact ih

/-- `find?` through a selective keyed update (selector independent of the
lookup), when keys are unique: the looked-up row is the updated original. -/
lemma find?_update_keyed {α : Type} (key : α → Nat) (g : α → α) (sel : α → Bool)
    (hg : ∀ a, key (g a) = key a) (l : List α) (a : α) (ha : a ∈ l)
    (hnd : (l.map key).Nodup) :
    (l.map (fun x => if sel x then g x else x)).find? (fun x => key x == key a)
      = some (if sel a then g a else a) := by
  induction l with
  | nil => cases ha
  | cons b l ih =>
    simp only [List.map_cons, List.nodup_cons] at hnd
    by_cases hb : key b = key a
    · have hab : a = b := by
        rcases List.mem_cons.mp ha with rfl | hal
        · rfl
        · exact absurd (hb ▸ List.mem_map_of_mem key hal) hnd.1
      subst hab
      by_cases hs : sel a
      · simp [List.find?_cons, hs, hg a]
      · simp [List.find?_cons, hs]
    · have hfind : ((if sel b then g b else b) : α) ∈
          (l.map (fun x => if sel x then g x else x)) → True := fun _ => trivial
      have hkey : key (if sel b then g b else b) = key b := by
        by_cases hs : sel b <;> simp [hs, hg b]
      have hne : (key (if sel b then g b else b) == key a) = false := by
        rw [hkey]; simp [hb]
      rcases List.mem_cons.mp ha with rfl | hal
      · exact absurd rfl hb
      · simp only [List.map_cons, List.find?_cons, hne]
        exact ih hal hnd.2

/-- Keys are unchanged by a key-preserving selective update. -/
lemma map_key_update {α : Type} (key : α → Nat) (g : α → α) (sel : α → Bool)
    (hg : ∀ a, key (g a) = key a) (l : List α) :
    (l.map (fun x => if sel x then g x else x)).map key = l.map key := by
  rw [List.map_map]
  apply List.map_congr_left
  intro a _
  by_cases hs : sel a <;> simp [hs, hg a]

/-- Membership of an untouched row survives a selective update. -/
lemma mem_update_of_untouched {α : Type} (g : α → α) (sel : α → Bool)
    (l : List α) (a : α) (ha : a ∈ l) (hs : sel a = false) :
    a ∈ l.map (fun x => if sel x then g x else x) := by
  have : a = (fun x => if sel x then g x else x) a := by simp [hs]
  rw [this]
  exact List.mem_map_of_mem _ ha

/-- Membership of the image of a selected row in a selective update. -/
lemma mem_update_of_selected {α : Type} (g : α → α) (sel : α → Bool)
    (l : List α) (a : α) (ha : a ∈ l) (hs : sel a = true) :
    g a ∈ l.map (fun x => if sel x then g x else x) := by
  have : g a = (fun x => if sel x then g x else x) a := by simp [hs]
  rw [this]
  exact List.mem_map_of_mem _ ha

/-- Bump a run's progress counter (the `run.progress_current += 1` commits). -/
def Run.bump (r : Run) (n : Nat) : Run :=
  { r with progress_current := r.progress_current + n }

lemma Run.bump_zero (r : Run) : r.bump 0 = r := by
  cases r; simp [Run.bump]

lemma Run.bump_bump (r : Run) (n m : Nat) : (r.bump n).bump m = r.bump (n + m) := by
  cases r; simp [Run.bump]; omega

/-! ## Characterization of the per-query persist step -/

lemma persist_findRun (exec : ExecEnv) (rid : Nat) (od : Option String)
    (st : St) (q : Query) :
    (persistResult exec rid od st q).findRun rid
      = (st.findRun rid).map (fun r => r.bump 1) := by
  cases od <;>
    exact find?_update_self Run.id rid (fun r => r.bump 1) (fun r => rfl) st.runs

lemma persist_results (exec : ExecEnv) (rid : Nat) (od : Option String)
    (st : St) (q : Query) :
    (persistResult exec rid od st q).results
      = st.results ++ [resultOfOutcome rid q (exec q.id)] := by
  cases od <;> rfl

lemma persist_files (exec : ExecEnv) (rid : Nat) (od : Option String)
    (st : St) (q : Query) :
    (persistResult exec rid od st q).files
      = st.files ++
        (match od with
         | some d => [⟨artifactPath d q.ordinal,
             saveResultData q (resultOfOutcome rid q (exec q.id))⟩]
         | none => []) := by
  cases od
  · exact (List.append_nil _).symm
  · rfl

lemma persist_events (exec : ExecEnv) (rid : Nat) (od : Option String)
    (st : St) (q : Query) :
    ∃ e : Event, (persistResult exec rid od st q).events = st.events ++ [e] := by
  cases od <;> exact ⟨_, rfl⟩

lemma persist_queries (exec : ExecEnv) (rid : Nat) (od : Option String)
    (st : St) (q : Query) :
    (persistResult exec rid od st q).queries = st.queries := by
  cases od <;> rfl

/-- The artifact files written for a list of queries. -/
def artifactsOf (exec : ExecEnv) (rid : Nat) (od : Option String)
    (qs : List Query) : List FileWrite :=
  match od with
  | none => []
  | some d => qs.map (fun q =>
      ⟨artifactPath d q.ordinal, saveResultData q (resultOfOutcome rid q (exec q.id))⟩)

lemma foldl_persist_findRun (exec : ExecEnv) (rid : Nat) (od : Option String)
    (qs : List Query) (st : St) :
    (qs.foldl (persistResult exec rid od) st).findRun rid
      = (st.findRun rid).map (fun r => r.bump qs.length) := by
  induction qs generalizing st with
  | nil =>
    simp only [List.foldl_nil]
    cases h : st.findRun rid <;> simp [h, Run.bump_zero]
  | cons q qs ih =>
    simp only [List.foldl_cons]
    rw [ih, persist_findRun]
    cases h : st.findRun rid <;> simp [h, Run.bump_bump, Nat.add_comm]

lemma foldl_persist_results (exec : ExecEnv) (rid : Nat) (od : Option String)
    (qs : List Query) (st : St) :
    (qs.foldl (persistResult exec rid od) st).results
      = st.results ++ qs.map (fun q => resultOfOutcome rid q (exec q.id)) := by
  induction qs generalizing st with
  | nil => simp
  | cons q qs ih =>
    simp only [List.foldl_cons, List.map_cons]
    rw [ih, persist_results]
    simp

lemma foldl_persist_files (exec : ExecEnv) (rid : Nat) (od : Option String)
    (qs : List Query) (st : St) :
    (qs.foldl (persistResult exec rid od) st).files
      = st.files ++ artifactsOf exec rid od qs := by
  induction qs generalizing st with
  | nil => cases od <;> simp [artifactsOf]
  | cons q qs ih =>
    simp only [List.foldl_cons]
    rw [ih, persist_files]
    cases od <;> simp [artifactsOf]

lemma foldl_persist_events (exec : ExecEnv) (rid : Nat) (od : Option String)
    (qs : List Query) (st : St) :
    ∃ es : List Event, (qs.foldl (persistResult exec rid od) st).events
      = st.events ++ es := by
  induction qs generalizing st with
  | nil => exact ⟨[], by simp⟩
  | cons q qs ih =>
    simp only [List.foldl_cons]
    obtain ⟨es, hes⟩ := ih (persistResult exec rid od st q)
    obtain ⟨e, he⟩ := persist_events exec rid od st q
    exact ⟨e :: es, by rw [hes, he]; simp⟩

lemma foldl_persist_queries (exec : ExecEnv) (rid : Nat) (od : Option String)
    (qs : List Query) (st : St) :
    (qs.foldl (persistResult exec rid od) st).queries = st.queries := by
  induction qs generalizing st with
  | nil => rfl
  | cons q qs ih =>
    simp only [List.foldl_cons]
    rw [ih, persist_queries]

/-! ## Chunks lemmas -/

lemma chunksGo_flatten {α : Type} (bs : Nat) (hbs : 1 ≤ bs) :
    ∀ (fuel : Nat) (xs : List α), xs.length ≤ fuel →
      (chunksGo bs fuel xs).flatten = xs := by
  intro fuel
  induction fuel with
  | zero =>
    intro xs hxs
    have : xs = [] := List.length_eq_zero.mp (Nat.le_zero.mp hxs)
    subst this
    rfl
  | succ fuel ih =>
    intro xs hxs
    cases xs with
    | nil => rfl
    | cons x xs =>
      simp only [chunksGo, List.flatten_cons]
      rw [ih ((x :: xs).drop bs) (by simp at hxs ⊢; omega)]
      exact List.take_append_drop bs (x :: xs)

lemma chunks_flatten {α : Type} (bs : Nat) (hbs : 1 ≤ bs) (xs : List α) :
    (chunks bs xs).flatten = xs := by
  rw [chunks, if_neg (by omega)]
  exact chunksGo_flatten bs hbs xs.length xs le_rfl

/-- The flattened prefix of a chunk list is a prefix of the full flatten. -/
lemma flatten_take_length_le {α : Type} (l : List (List α)) (n : Nat) :
    ((l.take n).flatten).length ≤ l.flatten.length := by
  conv_rhs => rw [← List.take_append_drop n l]
  rw [List.flatten_append, List.length_append]
  omega

/-! ## Characterization of the batch loop -/

lemma runBatches_no_cancel (exec : ExecEnv) (rid : Nat) (od : Option String)
    (ct : Int) (batches : List (List Query)) (cancelAt : Option Nat) (st : St)
    (h : ∀ c, cancelAt = some c → batches.length ≤ c) :
    runBatches exec rid od ct cancelAt batches st
      = (batches.flatten.foldl (persistResult exec rid od) st, false,
         subCancel cancelAt batches.length) := by
  induction batches generalizing cancelAt st with
  | nil =>
    cases cancelAt <;> simp [runBatches, subCancel]
  | cons b bs ih =>
    have hne : ¬ cancelAt = some 0 := by
      intro he
      have := h 0 he
      simp at this
    rw [runBatches, if_neg hne]
    rw [ih (decrCancel cancelAt) _ ?_]
    · rw [List.flatten_cons, List.foldl_append]
      cases cancelAt with
      | none => rfl
      | some c =>
        have hc : (b :: bs).length ≤ c := h c rfl
        simp only [List.length_cons] at hc
        cases c with
        | zero => omega
        | succ c =>
          simp only [decrCancel, subCancel, List.length_cons]
          rw [Nat.succ_sub_succ]
    · intro c' hc'
      cases cancelAt with
      | none => simp [decrCancel] at hc'
      | some c =>
        have hc : (b :: bs).length ≤ c := h c rfl
        simp only [List.length_cons] at hc
        cases c with
        | zero => omega
        | succ c =>
          simp only [decrCancel, Option.some.injEq] at hc'
          omega

lemma runBatches_cancel_observed (exec : ExecEnv) (rid : Nat) (od : Option String)
    (ct : Int) (batches : List (List Query)) (c : Nat) (st : St)
    (h : c < batches.length) :
    runBatches exec rid od ct (some c) batches st
      = (((((batches.take c).flatten).foldl (persistResult exec rid od) st).updateRun
            rid (fun r => { r with status := "cancelled", completed_at := some ct })).publish
            rid "complete" (.obj [("status", .str "cancelled")]),
         true, some 0) := by
  induction batches generalizing c st with
  | nil => simp at h
  | cons b bs ih =>
    cases c with
    | zero =>
      rw [runBatches, if_pos rfl]
      simp
    | succ c =>
      rw [runBatches, if_neg (by simp)]
      simp only [decrCancel]
      rw [ih c _ (by simpa using h)]
      rw [List.take_succ_cons, List.flatten_cons, List.foldl_append]

/-! ## Characterization of `_execute_run_inner` -/

lemma runSetup_findRun (rid : Nat) (now : Int) (st : St) :
    (runSetup rid now st).findRun rid
      = (st.findRun rid).map
          (fun r => { r with status := "running", started_at := some now }) :=
  find?_update_self Run.id rid
    (fun r => { r with status := "running", started_at := some now })
    (fun _ => rfl) st.runs

lemma runSetup_queries (rid : Nat) (now : Int) (st : St) :
    (runSetup rid now st).queries = st.queries := rfl

lemma runSetup_results (rid : Nat) (now : Int) (st : St) :
    (runSetup rid now st).results = st.results := rfl

lemma runSetup_files (rid : Nat) (now : Int) (st : St) :
    (runSetup rid now st).files = st.files := rfl

lemma inner_eq_no_cancel (exec : ExecEnv) (rid : Nat) (qids : List Nat)
    (bs : Nat) (now dt ct : Int) (st : St) (run : Run) (agent : AgentConfig)
    (cancelAt : Option Nat)
    (hnc : ∀ c, cancelAt = some c →
      (chunks bs (loadQueries st.queries qids)).length ≤ c)
    (hfound : st.findRun rid = some run)
    (hagent : st.findAgent run.agent_config_id = some agent) :
    _execute_run_inner exec rid qids bs now dt ct cancelAt st
      = runFinalize rid dt ct
          (subCancel cancelAt (chunks bs (loadQueries st.queries qids)).length)
          (((chunks bs (loadQueries st.queries qids)).flatten).foldl
            (persistResult exec rid run.output_dir) (runSetup rid now st)) := by
  have hagent' : (runSetup rid now st).findAgent run.agent_config_id = some agent :=
    hagent
  simp only [_execute_run_inner, hfound, hagent', runSetup_queries]
  rw [runBatches_no_cancel exec rid run.output_dir ct _ cancelAt _ hnc]
  simp

lemma inner_eq_cancel (exec : ExecEnv) (rid : Nat) (qids : List Nat)
    (bs : Nat) (now dt ct : Int) (st : St) (run : Run) (agent : AgentConfig)
    (c : Nat)
    (hc : c < (chunks bs (loadQueries st.queries qids)).length)
    (hfound : st.findRun rid = some run)
    (hagent : st.findAgent run.agent_config_id = some agent) :
    _execute_run_inner exec rid qids bs now dt ct (some c) st
      = (((((chunks bs (loadQueries st.queries qids)).take c).flatten).foldl
            (persistResult exec rid run.output_dir) (runSetup rid now st)).updateRun
            rid (fun r => { r with status := "cancelled", completed_at := some ct })).publish
          rid "complete" (.obj [("status", .str "cancelled")]) := by
  have hagent' : (runSetup rid now st).findAgent run.agent_config_id = some agent :=
    hagent
  simp only [_execute_run_inner, hfound, hagent', runSetup_queries]
  rw [runBatches_cancel_observed exec rid run.output_dir ct _ c _ hc]
  simp

/-- Any finalization preserves the persisted results. -/
lemma runFinalize_results (rid : Nat) (dt ct : Int) (rem : Option Nat) (st : St) :
    (runFinalize rid dt ct rem st).results = st.results := by
  simp only [runFinalize]
  repeat' split
  all_goals rfl

/-- Any finalization preserves the artifact files. -/
lemma runFinalize_files (rid : Nat) (dt ct : Int) (rem : Option Nat) (st : St) :
    (runFinalize rid dt ct rem st).files = st.files := by
  simp only [runFinalize]
  repeat' split
  all_goals rfl

/-- `findRun` through `updateRun` at the same id. -/
lemma findRun_updateRun (st : St) (rid : Nat) (f : Run -> Run)
    (hf : ∀ r, (f r).id = r.id) :
    (st.updateRun rid f).findRun rid = (st.findRun rid).map f :=
  find?_update_self Run.id rid f hf st.runs

/-- Finalization when the run is still `running` and no late cancel write is
visible: mark `completed`, stamp `completed_at`, publish the final event. -/
lemma runFinalize_completed (rid : Nat) (dt ct : Int) (st : St) (r : Run)
    (hfound : st.findRun rid = some r) (hrun : r.status = "running") :
    runFinalize rid dt ct none st
      = (st.updateRun rid
          (fun x => { x with status := "completed", completed_at := some dt })).publish
          rid "complete" (.obj [
            ("status", .str "completed"),
            ("current", .num r.progress_current),
            ("total", .num r.progress_total)]) := by
  have hupd : (st.updateRun rid
      (fun x => { x with status := "completed", completed_at := some dt })).findRun rid
      = some { r with status := "completed", completed_at := some dt } := by
    rw [findRun_updateRun st rid
        (fun x => { x with status := "completed", completed_at := some dt })
        (fun _ => rfl), hfound, Option.map_some']
  simp only [runFinalize, reduceCtorEq, if_false, hfound, hrun, if_pos, hupd]

/-! ## Cost-preview API lemmas and fixtures -/

/-- Whether an endpoint call succeeded (did not raise an `HTTPException`). -/
def isOk {e a : Type} : Except e a → Bool
  | .ok _ => true
  | .error _ => false

/-- `findPreview` through `updatePreview` at the same id. -/
lemma findPreview_updatePreview (st : St) (pid : Nat)
    (f : RunCostPreview → RunCostPreview) (hf : ∀ p, (f p).id = p.id) :
    (st.updatePreview pid f).findPreview pid = (st.findPreview pid).map f :=
  find?_update_self RunCostPreview.id pid f hf st.previews

/-- Iterated retry attempts at the given times; a rejected attempt leaves the
store unchanged (`retry_cost_preview` raises before mutating). -/
def retryIter (pid : Nat) : List Int → St → St
  | [], st => st
  | now :: rest, st =>
    match retry_cost_preview pid now st with
    | .ok (_, st', _) => retryIter pid rest st'
    | .error _ => retryIter pid rest st

lemma retry_frame (pid : Nat) (now : Int) (st : St) (st' : St)
    (pv : RunCostPreview) (sched : Option Nat)
    (h : retry_cost_preview pid now st = .ok (pv, st', sched)) :
    (st'.findPreview pid).map (fun p => (p.approved_at, p.consumed_at))
      = (st.findPreview pid).map (fun p => (p.approved_at, p.consumed_at)) := by
  cases hf : st.findPreview pid with
  | none =>
    simp only [retry_cost_preview, hf] at h
    exact Except.noConfusion h
  | some p =>
    by_cases hr : p.status = "running"
    · simp only [retry_cost_preview, hf] at h
      rw [if_pos hr] at h
      exact Except.noConfusion h
    · simp only [retry_cost_preview, hf] at h
      rw [if_neg hr] at h
      simp only [Except.ok.injEq, Prod.mk.injEq] at h
      obtain ⟨-, hst', -⟩ := h
      subst hst'
      rw [findPreview_updatePreview st pid
          (fun p =>
            { p with
              status := "running"
              error_message := none
              started_at := some now
              completed_at := none
              sample_usage := Json.obj []
              sample_cost_usd := 0
              estimated_total_cost_usd := 0 }) (fun _ => rfl), hf]
      rfl

lemma retryIter_frame (pid : Nat) (times : List Int) (st : St) :
    ((retryIter pid times st).findPreview pid).map
        (fun p => (p.approved_at, p.consumed_at))
      = (st.findPreview pid).map (fun p => (p.approved_at, p.consumed_at)) := by
  induction times generalizing st with
  | nil => rfl
  | cons now rest ih =>
    simp only [retryIter]
    cases h : retry_cost_preview pid now st with
    | ok out =>
      obtain ⟨pv, st', sched⟩ := out
      rw [ih st']
      exact retry_frame pid now st st' pv sched h
    | error e => exact ih st

/-- C10: The retry operation on a non-running CostPreview resets `status`,
`error_message`, `started_at`, `completed_at`, `sample_usage`,
`sample_cost_usd` and `estimated_total_cost_usd`, but leaves `approved_at` and
`consumed_at` unchanged; a preview that was approved or consumed remains so
after any number of retry attempts. -/
theorem retry_preserves_approval_and_consumption
    (st : St) (pid : Nat) (now : Int) (p₀ : RunCostPreview)
    (hfind : st.findPreview pid = some p₀) (hnr : p₀.status ≠ "running") :
    (∃ st' : St,
      retry_cost_preview pid now st
        = .ok ({ p₀ with
                 status := "running"
                 error_message := none
                 started_at := some now
                 completed_at := none
                 sample_usage := Json.obj []
                 sample_cost_usd := 0
                 estimated_total_cost_usd := 0 }, st', some pid) ∧
      st'.findPreview pid
        = some { p₀ with
                 status := "running"
                 error_message := none
                 started_at := some now
                 completed_at := none
                 sample_usage := Json.obj []
                 sample_cost_usd := 0
                 estimated_total_cost_usd := 0 }) ∧
    (∀ times : List Int,
      ((retryIter pid times st).findPreview pid).map
          (fun p => (p.approved_at, p.consumed_at))
        = some (p₀.approved_at, p₀.consumed_at)) := by
  constructor
  · refine ⟨st.updatePreview pid (fun p =>
      { p with status := "running", error_message := none,
               started_at := some now, completed_at := none,
               sample_usage := Json.obj [], sample_cost_usd := 0,
               estimated_total_cost_usd := 0 }), ?_, ?_⟩
    · simp only [retry_cost_preview, hfind]
      rw [if_neg hnr]
    · rw [findPreview_updatePreview st pid
          (fun p =>
            { p with
              status := "running"
              error_message := none
              started_at := some now
              completed_at := none
              sample_usage := Json.obj []
              sample_cost_usd := 0
              estimated_total_cost_usd := 0 }) (fun _ => rfl), hfind]
      rfl
  · intro times
    rw [retryIter_frame pid times st, hfind]
    rfl

/-- Witness fixture: a failed preview that was already approved and consumed. -/
def exPreviewRetry : RunCostPreview :=
  { id := 1, suite_id := 1, agent_config_id := 1, label := "p", tags := [],
    batch_size := 10, «repeat» := 1, output_dir := none, query_ids := [1],
    sample_query_ids := [], total_query_count := 1, sample_usage := .obj [],
    sample_cost_usd := 0, estimated_total_cost_usd := 0, pricing_version := "v",
    currency := "USD", status := "failed", error_message := some "boom",
    started_at := some 1, completed_at := some 2, approved_at := some 5,
    consumed_at := some 7, created_at := 0 }

/-- Witness fixture: a store holding just `exPreviewRetry`. -/
def exStRetry : St :=
  { suites := [], agents := [], queries := [], runs := [], results := [],
    previews := [exPreviewRetry], events := [], files := [] }

/-- Witness for C10 at a concrete consumed, approved, failed preview. -/
theorem retry_preserves_approval_witness :
    (exStRetry.findPreview 1 = some exPreviewRetry ∧
       exPreviewRetry.status ≠ "running") ∧
    ((∃ st' : St,
      retry_cost_preview 1 42 exStRetry
        = .ok ({ exPreviewRetry with
                 status := "running"
                 error_message := none
                 started_at := some 42
                 completed_at := none
                 sample_usage := Json.obj []
                 sample_cost_usd := 0
                 estimated_total_cost_usd := 0 }, st', some 1) ∧
      st'.findPreview 1
        = some { exPreviewRetry with
                 status := "running"
                 error_message := none
                 started_at := some 42
                 completed_at := none
                 sample_usage := Json.obj []
                 sample_cost_usd := 0
                 estimated_total_cost_usd := 0 }) ∧
    (∀ times : List Int,
      ((retryIter 1 times exStRetry).findPreview 1).map
          (fun p => (p.approved_at, p.consumed_at))
        = some (exPreviewRetry.approved_at, exPreviewRetry.consumed_at))) :=
  ⟨⟨by decide, by decide⟩,
   retry_preserves_approval_and_consumption exStRetry 1 42 exPreviewRetry
     (by decide) (by decide)⟩

/-! ## Approve-and-start and admission control (C5, C6, C7) -/

/-- C7 (amended): the approve-and-start operation rejects with a synchronous
400 error — creating no Run and changing no preview state (the `.error`
result carries no store) — whenever the target CostPreview's status is not
`completed` or its `consumed_at` is already non-null.  (A null `approved_at`
does not cause rejection: the operation itself stamps `approved_at`.) -/
theorem approve_rejects_not_ready_or_consumed
    (st : St) (pid : Nat) (gid : String) (nid : Nat) (now : Int)
    (p : RunCostPreview) (hfind : st.findPreview pid = some p)
    (h : p.status ≠ "completed" ∨ p.consumed_at ≠ none) :
    ∃ msg : String,
      approve_preview_and_start pid gid nid now st = .error ⟨400, msg⟩ := by
  by_cases hs : p.status = "completed"
  · have hcons : p.consumed_at ≠ none := by
      rcases h with h | h
      · exact absurd hs h
      · exact h
    refine ⟨"Cost preview already consumed", ?_⟩
    simp only [approve_preview_and_start, hfind]
    rw [if_neg (fun hh => hh hs), if_pos (Option.isSome_iff_ne_none.mpr hcons)]
  · refine ⟨"Cost preview is not ready yet (status=" ++ p.status ++ ")", ?_⟩
    simp only [approve_preview_and_start, hfind]
    rw [if_pos hs]

/-- Fixture: a suite, a metered agent and a query for the approve scenarios. -/
def exSuiteA : BenchmarkSuite := ⟨1, "suite"⟩

/-- Fixture: an agent of the metered executor kind. -/
def exAgentA : AgentConfig :=
  ⟨1, "agent", "openai_agents", "gpt-test", none, Json.obj [], Json.obj []⟩

/-- Fixture: the `i`-th query of suite 1. -/
def exQueryN (i : Nat) : Query := ⟨i, 1, i, none, "q", "a"⟩

/-- Fixture: a completed, unconsumed preview whose `approved_at` is null. -/
def exPreviewUnapproved : RunCostPreview :=
  { id := 1, suite_id := 1, agent_config_id := 1, label := "p", tags := [],
    batch_size := 10, «repeat» := 1, output_dir := none, query_ids := [1],
    sample_query_ids := [1], total_query_count := 1, sample_usage := .obj [],
    sample_cost_usd := 0, estimated_total_cost_usd := 0, pricing_version := "v",
    currency := "USD", status := "completed", error_message := none,
    started_at := some 1, completed_at := some 2, approved_at := none,
    consumed_at := none, created_at := 0 }

/-- Fixture: a completed preview that was already approved and consumed. -/
def exPreviewConsumed : RunCostPreview :=
  { exPreviewUnapproved with id := 2, approved_at := some 5, consumed_at := some 5 }

/-- Fixture: store for the approve scenarios. -/
def exStApprove : St :=
  { suites := [exSuiteA], agents := [exAgentA], queries := [exQueryN 1],
    runs := [], results := [], previews := [exPreviewUnapproved, exPreviewConsumed],
    events := [], files := [] }

/-- Counterexample to C7 as stated: approve-and-start on preview 1, whose
`approved_at` is null (unapproved) but whose status is `completed` and which
is unconsumed, is ACCEPTED — it returns `.ok` and creates runs instead of
rejecting, because approve-and-start is itself the operation that stamps
`approved_at`. -/
theorem approve_accepts_unapproved_counterexample :
    (exStApprove.findPreview 1).map RunCostPreview.approved_at = some none ∧
    isOk (approve_preview_and_start 1 "grp" 10 1000 exStApprove) = true :=
  ⟨rfl, rfl⟩

/-- Witness for the amended C7 at preview 2 (already consumed). -/
theorem approve_rejects_witness :
    (exStApprove.findPreview 2 = some exPreviewConsumed ∧
      (exPreviewConsumed.status ≠ "completed" ∨ exPreviewConsumed.consumed_at ≠ none)) ∧
    (∃ msg : String,
      approve_preview_and_start 2 "grp" 10 1000 exStApprove = .error ⟨400, msg⟩) :=
  ⟨⟨by decide, by decide⟩,
   approve_rejects_not_ready_or_consumed exStApprove 2 "grp" 10 1000
     exPreviewConsumed (by decide) (by decide)⟩

/-- C6: approve-and-start on a `completed`, unconsumed CostPreview
re-validates the run inputs, requires the metered executor type, creates the
runs, then stamps `approved_at` and `consumed_at` to the same timestamp; the
consumed preview can never be consumed a second time (a further
approve-and-start, with any arguments, is rejected). -/
theorem approve_and_start_stamps_and_consumes
    (st : St) (pid : Nat) (gid gid₂ : String) (nid nid₂ : Nat) (now now₂ : Int)
    (p : RunCostPreview) (suite : BenchmarkSuite) (agent : AgentConfig)
    (queries : List Query) (qids : List Nat)
    (hfind : st.findPreview pid = some p)
    (hstatus : p.status = "completed") (hconsumed : p.consumed_at = none)
    (hres : _resolve_run_inputs (bodyOfPreview p) st = .ok (suite, agent, queries, qids))
    (hexec : agent.executor_type = "openai_agents") :
    ∃ st' : St,
      approve_preview_and_start pid gid nid now st
        = .ok ((_create_runs (bodyOfPreview p) qids queries.length gid nid now st).1,
               st',
               (_create_runs (bodyOfPreview p) qids queries.length gid nid now st).2.2) ∧
      st'.findPreview pid
        = some { p with approved_at := some now, consumed_at := some now } ∧
      approve_preview_and_start pid gid₂ nid₂ now₂ st'
        = .error ⟨400, "Cost preview already consumed"⟩ := by
  rcases hcr : _create_runs (bodyOfPreview p) qids queries.length gid nid now st with
    ⟨runs', st'', sched'⟩
  have hprev : st''.previews = st.previews := by
    have := congrArg (fun t : List Run × St × List ScheduledRunJob => t.2.1.previews) hcr
    exact this.symm
  have hfind'' : st''.findPreview pid = some p := by
    show st''.previews.find? (fun x => x.id == pid) = some p
    rw [hprev]
    exact hfind
  refine ⟨st''.updatePreview pid
    (fun q => { q with approved_at := some now, consumed_at := some now }), ?_, ?_, ?_⟩
  · simp only [approve_preview_and_start, hfind]
    rw [if_neg (fun hh => hh hstatus),
      if_neg (by rw [hconsumed]; exact Bool.false_ne_true)]
    simp only [hres]
    rw [if_neg (fun hh => hh hexec), hcr]
  · rw [findPreview_updatePreview st'' pid
      (fun q => { q with approved_at := some now, consumed_at := some now })
      (fun _ => rfl), hfind'']
    rfl
  · have hfind' : (st''.updatePreview pid
        (fun q => { q with approved_at := some now, consumed_at := some now })).findPreview pid
        = some { p with approved_at := some now, consumed_at := some now } := by
      rw [findPreview_updatePreview st'' pid
        (fun q => { q with approved_at := some now, consumed_at := some now })
        (fun _ => rfl), hfind'']
      rfl
    simp only [approve_preview_and_start, hfind']
    rw [if_neg (fun hh => hh hstatus)]
    simp

/-- Witness for C6: approving the completed, unconsumed preview 1. -/
theorem approve_and_start_witness :
    (exStApprove.findPreview 1 = some exPreviewUnapproved ∧
      exPreviewUnapproved.status = "completed" ∧
      exPreviewUnapproved.consumed_at = none ∧
      _resolve_run_inputs (bodyOfPreview exPreviewUnapproved) exStApprove
        = .ok (exSuiteA, exAgentA, [exQueryN 1], [1]) ∧
      exAgentA.executor_type = "openai_agents") ∧
    (∃ st' : St,
      approve_preview_and_start 1 "grp" 10 1000 exStApprove
        = .ok ((_create_runs (bodyOfPreview exPreviewUnapproved) [1] 1 "grp" 10 1000 exStApprove).1,
               st',
               (_create_runs (bodyOfPreview exPreviewUnapproved) [1] 1 "grp" 10 1000 exStApprove).2.2) ∧
      st'.findPreview 1
        = some { exPreviewUnapproved with approved_at := some 1000, consumed_at := some 1000 } ∧
      approve_preview_and_start 1 "g2" 20 2000 st'
        = .error ⟨400, "Cost preview already consumed"⟩) :=
  ⟨⟨by decide, by decide, by decide, by rfl, by decide⟩,
   approve_and_start_stamps_and_consumes exStApprove 1 "grp" "g2" 10 20 1000 2000
     exPreviewUnapproved exSuiteA exAgentA [exQueryN 1] [1]
     (by decide) (by decide) (by decide) (by rfl) (by decide)⟩

/-- C5: `create_run` for a metered agent with more than 3 resolved queries is
rejected with a synchronous admission-control error (no Run created, the
`.error` result carries no store) unless a `completed` CostPreview with
non-null `approved_at` exists for the same (suite, agent) pair; when such a
preview exists, creation succeeds. -/
theorem large_metered_run_gated
    (body : RunCreate) (st : St) (gid : String) (nid : Nat) (now : Int)
    (suite : BenchmarkSuite) (agent : AgentConfig) (queries : List Query)
    (qids : List Nat)
    (hres : _resolve_run_inputs body st = .ok (suite, agent, queries, qids))
    (hexec : agent.executor_type = "openai_agents")
    (hcount : queries.length > 3) :
    (approvedPreviewExists st body.suite_id body.agent_config_id = false →
      create_run body gid nid now st
        = .error ⟨400, "Runs with more than 3 queries require a completed and approved cost preview for this dataset/agent."⟩) ∧
    (approvedPreviewExists st body.suite_id body.agent_config_id = true →
      create_run body gid nid now st
        = .ok (_create_runs body qids queries.length gid nid now st)) := by
  constructor <;> intro hgate <;>
    simp only [create_run, hres] <;> rw [if_pos ⟨hexec, hcount⟩] <;> simp [hgate]

/-- Fixture: suite 1 with four queries and one approved preview. -/
def exPreviewApproved : RunCostPreview :=
  { exPreviewUnapproved with id := 3, approved_at := some 6 }

/-- Fixture: store for the admission-control scenario. -/
def exStAdmit : St :=
  { suites := [exSuiteA], agents := [exAgentA],
    queries := [exQueryN 1, exQueryN 2, exQueryN 3, exQueryN 4],
    runs := [], results := [], previews := [exPreviewApproved],
    events := [], files := [] }

/-- Fixture: a run-creation request for all queries of suite 1. -/
def exBodyAdmit : RunCreate := ⟨1, 1, "L", [], 2, none, some "/out", 1⟩

/-- Witness for C5: with an approved completed preview present, a metered
4-query run creation succeeds. -/
theorem large_metered_run_gated_witness :
    (_resolve_run_inputs exBodyAdmit exStAdmit
        = .ok (exSuiteA, exAgentA,
               [exQueryN 1, exQueryN 2, exQueryN 3, exQueryN 4], [1, 2, 3, 4]) ∧
      exAgentA.executor_type = "openai_agents" ∧
      ([exQueryN 1, exQueryN 2, exQueryN 3, exQueryN 4] : List Query).length > 3 ∧
      approvedPreviewExists exStAdmit exBodyAdmit.suite_id exBodyAdmit.agent_config_id = true) ∧
    create_run exBodyAdmit "grp" 10 99 exStAdmit
      = .ok (_create_runs exBodyAdmit [1, 2, 3, 4] 4 "grp" 10 99 exStAdmit) :=
  ⟨⟨by rfl, by decide, by decide, by decide⟩,
   (large_metered_run_gated exBodyAdmit exStAdmit "grp" 10 99 exSuiteA exAgentA
     [exQueryN 1, exQueryN 2, exQueryN 3, exQueryN 4] [1, 2, 3, 4]
     (by rfl) (by decide) (by decide)).2 (by decide)⟩

/-! ## Stale-preview recovery (C9) -/

/-- `find?` by key of a member, when keys are unique. -/
lemma find?_key_self {α : Type} (key : α → Nat) (l : List α) (a : α)
    (ha : a ∈ l) (hnd : (l.map key).Nodup) :
    l.find? (fun x => key x == key a) = some a := by
  have h := find?_update_keyed key (fun x => x) (fun _ => false)
    (fun _ => rfl) l a ha hnd
  simpa using h

/-- Membership in the stale-candidate rows is membership in the matching rows
whenever at most 20 rows match (the `limit 20` is then irrelevant). -/
lemma staleCandidates_all (previews : List RunCostPreview)
    (hcount : (previews.filter (fun q =>
        q.status == "running" && q.started_at.isSome && q.completed_at.isNone)).length ≤ 20)
    (q : RunCostPreview) :
    q ∈ staleCandidates previews ↔ q ∈ previews.filter (fun q =>
        q.status == "running" && q.started_at.isSome && q.completed_at.isNone) := by
  unfold staleCandidates
  rw [List.take_of_length_le (by simpa using hcount)]
  simp

/-- The row a `findPreview` sees after the stale-recovery phase. -/
lemma resetStale_find (now : Int) (st : St) (p : RunCostPreview)
    (hnd : (st.previews.map RunCostPreview.id).Nodup) (hp : p ∈ st.previews) :
    (resetStaleRunning now st).findPreview p.id
      = some (if (staleCandidates st.previews).any (fun c => c.id == p.id)
                  && isStale now p
              then { p with
                     status := "pending"
                     error_message := some staleRecoveryMessage }
              else p) :=
  find?_update_keyed RunCostPreview.id
    (fun q =>
      { q with
        status := "pending"
        error_message := some staleRecoveryMessage })
    (fun q => (staleCandidates st.previews).any (fun c => c.id == q.id)
                && isStale now q)
    (fun _ => rfl) st.previews p hp hnd

/-- The row a `findPreview` sees after the pending-drain phase. -/
lemma drain_find (now : Int) (st : St) (p : RunCostPreview)
    (hnd : (st.previews.map RunCostPreview.id).Nodup) (hp : p ∈ st.previews) :
    (drainPending now st).1.findPreview p.id
      = some (if ((List.insertionSort (fun a b => a.created_at ≤ b.created_at)
                    (st.previews.filter (fun q => q.status == "pending"))).take 20).any
                  (fun c => c.id == p.id)
              then { p with
                     status := "running"
                     started_at := some (p.started_at.getD now) }
              else p) := by
  simp only [drainPending]
  split
  case isTrue hemp =>
    rw [hemp]
    simp only [List.any_nil, Bool.false_eq_true, if_neg, not_false_eq_true]
    exact find?_key_self RunCostPreview.id st.previews p hp hnd
  case isFalse hemp =>
    exact find?_update_keyed RunCostPreview.id
      (fun q =>
        { q with
          status := "running"
          started_at := some (q.started_at.getD now) })
      (fun q => ((List.insertionSort (fun a b => a.created_at ≤ b.created_at)
                    (st.previews.filter (fun x => x.status == "pending"))).take 20).any
                  (fun c => c.id == q.id))
      (fun _ => rfl) st.previews p hp hnd

/-- The sampler jobs scheduled by the pending-drain phase. -/
lemma drain_sched (now : Int) (st : St) :
    (drainPending now st).2
      = ((List.insertionSort (fun a b => a.created_at ≤ b.created_at)
            (st.previews.filter (fun q => q.status == "pending"))).take 20).map
          (fun q => q.id) := by
  simp only [drainPending]
  split
  case isTrue h => rw [h]; rfl
  case isFalse h => rfl

/-- C9 (amended): when the preview-listing operation drains the queue, every
CostPreview in status `running` with a non-null `started_at` older than 15
minutes and a null `completed_at` — among the 20 oldest-started matching rows,
hence all of them whenever at most 20 rows match — is reset to `pending` with
the explanatory recovery message by the stale-recovery phase; the drain phase
of the same call may immediately re-queue the recovered preview to `running`,
scheduling its sampler job.  Previews in `running` for less than 15 minutes,
or with `completed_at` set, are left unchanged by the whole call. -/
theorem stale_running_previews_recovered (now : Int) (st : St) (p : RunCostPreview)
    (hnd : (st.previews.map RunCostPreview.id).Nodup)
    (hcount : (st.previews.filter (fun q =>
        q.status == "running" && q.started_at.isSome && q.completed_at.isNone)).length ≤ 20)
    (hp : p ∈ st.previews) :
    (p.status = "running" → p.completed_at = none → isStale now p = true →
      ∃ p' : RunCostPreview,
        ((_enqueue_pending_previews now st).1).findPreview p.id = some p' ∧
        p'.error_message = some staleRecoveryMessage ∧
        (p'.status = "pending" ∨
          (p'.status = "running" ∧ p.id ∈ (_enqueue_pending_previews now st).2))) ∧
    (p.status = "running" → (isStale now p = false ∨ p.completed_at ≠ none) →
      ((_enqueue_pending_previews now st).1).findPreview p.id = some p) := by
  have hndR : ((resetStaleRunning now st).previews.map RunCostPreview.id).Nodup := by
    show ((st.previews.map _).map RunCostPreview.id).Nodup
    rw [map_key_update RunCostPreview.id
      (fun q =>
        { q with
          status := "pending"
          error_message := some staleRecoveryMessage })
      (fun q => (staleCandidates st.previews).any (fun c => c.id == q.id)
                  && isStale now q)
      (fun _ => rfl) st.previews]
    exact hnd
  constructor
  · intro hrun hcomp hstale
    obtain ⟨t, hst⟩ : ∃ t, p.started_at = some t := by
      cases hs : p.started_at with
      | none => rw [isStale, hs] at hstale; cases hstale
      | some t => exact ⟨t, rfl⟩
    have hfilt : p ∈ st.previews.filter (fun q =>
        q.status == "running" && q.started_at.isSome && q.completed_at.isNone) := by
      rw [List.mem_filter]
      exact ⟨hp, by simp [hrun, hcomp, hst]⟩
    have hcand : p ∈ staleCandidates st.previews :=
      (staleCandidates_all st.previews hcount p).mpr hfilt
    have hselA : ((staleCandidates st.previews).any (fun c => c.id == p.id)
        && isStale now p) = true := by
      rw [hstale, Bool.and_true, List.any_eq_true]
      exact ⟨p, hcand, by simp⟩
    have hfindA : (resetStaleRunning now st).findPreview p.id
        = some { p with status := "pending", error_message := some staleRecoveryMessage } := by
      rw [resetStale_find now st p hnd hp, if_pos hselA]
    have hmemR : ({ p with status := "pending", error_message := some staleRecoveryMessage }
        : RunCostPreview) ∈ (resetStaleRunning now st).previews :=
      mem_update_of_selected
        (fun q =>
          { q with
            status := "pending"
            error_message := some staleRecoveryMessage })
        (fun q => (staleCandidates st.previews).any (fun c => c.id == q.id)
                    && isStale now q)
        st.previews p hp hselA
    have hdf := drain_find now (resetStaleRunning now st)
      { p with status := "pending", error_message := some staleRecoveryMessage } hndR hmemR
    by_cases hselB : ((List.insertionSort (fun a b => a.created_at ≤ b.created_at)
        ((resetStaleRunning now st).previews.filter
          (fun q => q.status == "pending"))).take 20).any
        (fun c => c.id == ({ p with status := "pending", error_message := some staleRecoveryMessage } : RunCostPreview).id) = true
    · refine ⟨{ p with
        status := "running"
        error_message := some staleRecoveryMessage
        started_at := some (p.started_at.getD now) }, ?_, rfl, Or.inr ⟨rfl, ?_⟩⟩
      · show (drainPending now (resetStaleRunning now st)).1.findPreview
          ({ p with status := "pending", error_message := some staleRecoveryMessage } : RunCostPreview).id = _
        rw [hdf, if_pos hselB]
      · show p.id ∈ (drainPending now (resetStaleRunning now st)).2
        rw [drain_sched]
        rw [List.any_eq_true] at hselB
        obtain ⟨c, hc, hcid⟩ := hselB
        rw [List.mem_map]
        exact ⟨c, hc, by simpa using hcid⟩
    · refine ⟨{ p with status := "pending", error_message := some staleRecoveryMessage },
        ?_, rfl, Or.inl rfl⟩
      show (drainPending now (resetStaleRunning now st)).1.findPreview
        ({ p with status := "pending", error_message := some staleRecoveryMessage } : RunCostPreview).id = _
      rw [hdf, if_neg hselB]
  · intro hrun hother
    have hselA : ((staleCandidates st.previews).any (fun c => c.id == p.id)
        && isStale now p) = false := by
      rcases hother with hstale | hcomp
      · rw [hstale, Bool.and_false]
      · have hany : (staleCandidates st.previews).any (fun c => c.id == p.id) = false := by
          rw [Bool.eq_false_iff]
          intro hany
          rw [List.any_eq_true] at hany
          obtain ⟨c, hc, hcid⟩ := hany
          have hcf := (staleCandidates_all st.previews hcount c).mp hc
          rw [List.mem_filter] at hcf
          have hceq : c = p :=
            List.inj_on_of_nodup_map hnd hcf.1 hp (by simpa using hcid)
          rw [hceq] at hcf
          simp only [Bool.and_eq_true, Option.isNone_iff_eq_none] at hcf
          exact hcomp hcf.2.2
        rw [hany, Bool.false_and]
    have hfindA : (resetStaleRunning now st).findPreview p.id = some p := by
      rw [resetStale_find now st p hnd hp, if_neg (by rw [hselA]; exact Bool.false_ne_true)]
    have hmemR : p ∈ (resetStaleRunning now st).previews := by
      apply mem_update_of_untouched
        (fun q =>
          { q with
            status := "pending"
            error_message := some staleRecoveryMessage })
        (fun q => (staleCandidates st.previews).any (fun c => c.id == q.id)
                    && isStale now q)
        st.previews p hp
      exact hselA
    have hselB : ((List.insertionSort (fun a b => a.created_at ≤ b.created_at)
        ((resetStaleRunning now st).previews.filter
          (fun q => q.status == "pending"))).take 20).any
        (fun c => c.id == p.id) = false := by
      rw [Bool.eq_false_iff]
      intro hany
      rw [List.any_eq_true] at hany
      obtain ⟨c, hc, hcid⟩ := hany
      have hcmem : c ∈ (resetStaleRunning now st).previews.filter
          (fun q => q.status == "pending") := by
        have := List.mem_of_mem_take hc
        simpa using this
      rw [List.mem_filter] at hcmem
      have hceq : c = p :=
        List.inj_on_of_nodup_map hndR hcmem.1 hmemR (by simpa using hcid)
      rw [hceq] at hcmem
      rw [hrun] at hcmem
      simpa using hcmem.2
    have hdf := drain_find now (resetStaleRunning now st) p hndR hmemR
    show (drainPending now (resetStaleRunning now st)).1.findPreview p.id = _
    rw [hdf, if_neg (by rw [hselB]; exact Bool.false_ne_true)]

/-- Fixture for C9: the `i`-th stale running preview (`started_at = i`, far
older than 15 minutes by `now = 10000`, never completed). -/
def staleFixture (i : Nat) : RunCostPreview :=
  { id := i, suite_id := 1, agent_config_id := 1, label := "p", tags := [],
    batch_size := 10, «repeat» := 1, output_dir := none, query_ids := [1],
    sample_query_ids := [], total_query_count := 1, sample_usage := .obj [],
    sample_cost_usd := 0, estimated_total_cost_usd := 0, pricing_version := "v",
    currency := "USD", status := "running", error_message := none,
    started_at := some (i : Int), completed_at := none, approved_at := none,
    consumed_at := none, created_at := (i : Int) }

/-- Fixture: a store with 21 stale running previews. -/
def exSt21 : St :=
  { suites := [], agents := [], queries := [], runs := [], results := [],
    previews := (List.range 21).map staleFixture, events := [], files := [] }

/-- Counterexample to C9 as stated: with 21 stale `running` previews, one
preview-listing invocation touches only the 20 oldest-started rows
(`limit 20`); preview 20, stale for far longer than 15 minutes, is NOT reset —
it remains `running` with no recovery message. -/
theorem stale_preview_limit_counterexample :
    isStale 10000 (staleFixture 20) = true ∧
    (staleFixture 20).status = "running" ∧
    (staleFixture 20).completed_at = none ∧
    (((_enqueue_pending_previews 10000 exSt21).1.findPreview 20).map
        (fun p => (p.status, p.error_message)))
      = some ("running", none) :=
  ⟨by decide, rfl, rfl, by decide⟩

/-- Fixture: a store with a single stale running preview. -/
def exStStale1 : St :=
  { suites := [], agents := [], queries := [], runs := [], results := [],
    previews := [staleFixture 0], events := [], files := [] }

/-- Witness for the amended C9 at a single stale running preview. -/
theorem stale_running_previews_recovered_witness :
    ((exStStale1.previews.map RunCostPreview.id).Nodup ∧
      (exStStale1.previews.filter (fun q =>
        q.status == "running" && q.started_at.isSome && q.completed_at.isNone)).length ≤ 20 ∧
      staleFixture 0 ∈ exStStale1.previews) ∧
    (((staleFixture 0).status = "running" → (staleFixture 0).completed_at = none →
      isStale 10000 (staleFixture 0) = true →
      ∃ p' : RunCostPreview,
        ((_enqueue_pending_previews 10000 exStStale1).1).findPreview (staleFixture 0).id
          = some p' ∧
        p'.error_message = some staleRecoveryMessage ∧
        (p'.status = "pending" ∨
          (p'.status = "running" ∧
            (staleFixture 0).id ∈ (_enqueue_pending_previews 10000 exStStale1).2))) ∧
    ((staleFixture 0).status = "running" →
      (isStale 10000 (staleFixture 0) = false ∨ (staleFixture 0).completed_at ≠ none) →
      ((_enqueue_pending_previews 10000 exStStale1).1).findPreview (staleFixture 0).id
        = some (staleFixture 0))) :=
  ⟨⟨by decide, by decide, by decide⟩,
   stale_running_previews_recovered 10000 exStStale1 (staleFixture 0)
     (by decide) (by decide) (by decide)⟩

/-! ## Batch Runner claims (C2, C3) -/

/-- C2: for every query in a batch whose execution raises, the Batch Runner
persists a Result with `error` set to the exception's message and
`execution_time_seconds = 0`; every other query's Result is the translation of
its own Executor outcome, unaffected by the failure; and (absent cancellation
and infrastructure failure) the run reaches terminal status `completed`. -/
theorem per_query_error_recorded
    (exec : ExecEnv) (rid : Nat) (qids : List Nat) (bs : Nat)
    (now dt ct : Int) (st : St) (run : Run) (agent : AgentConfig)
    (hbs : 1 ≤ bs)
    (hfound : st.findRun rid = some run)
    (hagent : st.findAgent run.agent_config_id = some agent) :
    (_execute_run_inner exec rid qids bs now dt ct none st).results
      = st.results ++ (loadQueries st.queries qids).map
          (fun q => resultOfOutcome rid q (exec q.id)) ∧
    (∀ (q : Query) (msg : String), exec q.id = .exn msg →
      resultOfOutcome rid q (exec q.id)
        = { run_id := rid, query_id := q.id, agent_response := none,
            tool_calls := none, reasoning := none, usage := none,
            execution_time_seconds := some 0, error := some msg }) ∧
    ((_execute_run_inner exec rid qids bs now dt ct none st).findRun rid).map
        Run.status = some "completed" ∧
    ((_execute_run_inner exec rid qids bs now dt ct none st).findRun rid).map
        Run.completed_at = some (some dt) := by
  have hinner := inner_eq_no_cancel exec rid qids bs now dt ct st run agent none
    (fun c h => by cases h) hfound hagent
  have hflat : (chunks bs (loadQueries st.queries qids)).flatten
      = loadQueries st.queries qids := chunks_flatten bs hbs _
  rw [hflat] at hinner
  rw [show subCancel none (chunks bs (loadQueries st.queries qids)).length = none
      from rfl] at hinner
  have hstp : (((loadQueries st.queries qids).foldl
        (persistResult exec rid run.output_dir) (runSetup rid now st)).findRun rid)
      = some (({ run with status := "running", started_at := some now } : Run).bump
          (loadQueries st.queries qids).length) := by
    rw [foldl_persist_findRun, runSetup_findRun, hfound]
    rfl
  have hfin := runFinalize_completed rid dt ct
    ((loadQueries st.queries qids).foldl
      (persistResult exec rid run.output_dir) (runSetup rid now st))
    (({ run with status := "running", started_at := some now } : Run).bump
      (loadQueries st.queries qids).length)
    hstp rfl
  refine ⟨?_, ?_, ?_, ?_⟩
  · rw [hinner, hfin]
    show ((loadQueries st.queries qids).foldl
      (persistResult exec rid run.output_dir) (runSetup rid now st)).results = _
    rw [foldl_persist_results, runSetup_results]
  · intro q msg h
    rw [h]
    rfl
  · rw [hinner, hfin]
    show ((((loadQueries st.queries qids).foldl
        (persistResult exec rid run.output_dir) (runSetup rid now st)).updateRun rid
        (fun x => { x with status := "completed", completed_at := some dt })).findRun
          rid).map Run.status = _
    rw [findRun_updateRun _ rid
      (fun x => { x with status := "completed", completed_at := some dt })
      (fun _ => rfl), hstp]
    rfl
  · rw [hinner, hfin]
    show ((((loadQueries st.queries qids).foldl
        (persistResult exec rid run.output_dir) (runSetup rid now st)).updateRun rid
        (fun x => { x with status := "completed", completed_at := some dt })).findRun
          rid).map Run.completed_at = _
    rw [findRun_updateRun _ rid
      (fun x => { x with status := "completed", completed_at := some dt })
      (fun _ => rfl), hstp]
    rfl

/-- Fixture: a pending run over suite 1 with two queries. -/
def exRun : Run :=
  { id := 1, suite_id := 1, agent_config_id := 1, label := "L",
    run_group := none, run_number := 1, status := "pending",
    progress_current := 0, progress_total := 2, batch_size := 1,
    error_message := none, output_dir := some "/out", tags := [],
    started_at := none, completed_at := none, created_at := 0 }

/-- Fixture: an Executor environment where query 1 raises and query 2
succeeds. -/
def exExec : ExecEnv := fun qid =>
  if qid = 1 then .exn "boom"
  else .ok ⟨"resp", [], [], [], 2, none⟩

/-- Fixture: store for the runner scenarios. -/
def exStRun : St :=
  { suites := [exSuiteA], agents := [exAgentA],
    queries := [exQueryN 1, exQueryN 2], runs := [exRun], results := [],
    previews := [], events := [], files := [] }

/-- Witness for C2: a 2-query run where query 1 raises `"boom"`. -/
theorem per_query_error_recorded_witness :
    (1 ≤ 1 ∧ exStRun.findRun 1 = some exRun ∧
      exStRun.findAgent exRun.agent_config_id = some exAgentA) ∧
    (_execute_run_inner exExec 1 [1, 2] 1 100 200 0 none exStRun).results
      = [] ++ (loadQueries exStRun.queries [1, 2]).map
          (fun q => resultOfOutcome 1 q (exExec q.id)) ∧
    resultOfOutcome 1 (exQueryN 1) (exExec 1)
      = { run_id := 1, query_id := 1, agent_response := none,
          tool_calls := none, reasoning := none, usage := none,
          execution_time_seconds := some 0, error := some "boom" } ∧
    ((_execute_run_inner exExec 1 [1, 2] 1 100 200 0 none exStRun).findRun 1).map
        Run.status = some "completed" :=
  ⟨⟨by decide, by decide, by decide⟩,
   (per_query_error_recorded exExec 1 [1, 2] 1 100 200 0 exStRun exRun exAgentA
      (by decide) (by decide) (by decide)).1,
   (per_query_error_recorded exExec 1 [1, 2] 1 100 200 0 exStRun exRun exAgentA
      (by decide) (by decide) (by decide)).2.1 (exQueryN 1) "boom" (by decide),
   (per_query_error_recorded exExec 1 [1, 2] 1 100 200 0 exStRun exRun exAgentA
      (by decide) (by decide) (by decide)).2.2.1⟩

/-- C3: when the run's stored status has been set to `cancelled` by the
external cancel action and the Batch Runner observes it at a batch boundary,
it publishes a final `complete` event with status `cancelled`, executes no
further queries, adds no further Results — the persisted Results are exactly
the prior ones plus those of the batches before the boundary, all retained —
and the stored status remains `cancelled`. -/
theorem cancellation_at_batch_boundary
    (exec : ExecEnv) (rid : Nat) (qids : List Nat) (bs : Nat)
    (now dt ct : Int) (st : St) (run : Run) (agent : AgentConfig) (c : Nat)
    (hfound : st.findRun rid = some run)
    (hagent : st.findAgent run.agent_config_id = some agent)
    (hc : c < (chunks bs (loadQueries st.queries qids)).length) :
    (_execute_run_inner exec rid qids bs now dt ct (some c) st).results
      = st.results
        ++ (((chunks bs (loadQueries st.queries qids)).take c).flatten).map
            (fun q => resultOfOutcome rid q (exec q.id)) ∧
    ((_execute_run_inner exec rid qids bs now dt ct (some c) st).findRun rid).map
        Run.status = some "cancelled" ∧
    (_execute_run_inner exec rid qids bs now dt ct (some c) st).events.getLast?
      = some ⟨rid, "complete", .obj [("status", .str "cancelled")]⟩ := by
  have hinner := inner_eq_cancel exec rid qids bs now dt ct st run agent c hc
    hfound hagent
  refine ⟨?_, ?_, ?_⟩
  · rw [hinner]
    show ((((chunks bs (loadQueries st.queries qids)).take c).flatten).foldl
      (persistResult exec rid run.output_dir) (runSetup rid now st)).results = _
    rw [foldl_persist_results, runSetup_results]
  · rw [hinner]
    show Option.map Run.status
      ((((((chunks bs (loadQueries st.queries qids)).take c).flatten).foldl
        (persistResult exec rid run.output_dir) (runSetup rid now st)).updateRun rid
        (fun r => { r with status := "cancelled", completed_at := some ct })).findRun
          rid) = some "cancelled"
    rw [findRun_updateRun _ rid
      (fun r => { r with status := "cancelled", completed_at := some ct })
      (fun _ => rfl)]
    rw [foldl_persist_findRun, runSetup_findRun, hfound]
    rfl
  · rw [hinner]
    show ((((((chunks bs (loadQueries st.queries qids)).take c).flatten).foldl
        (persistResult exec rid run.output_dir) (runSetup rid now st)).updateRun rid
        (fun r => { r with status := "cancelled", completed_at := some ct })).events
        ++ [(⟨rid, "complete", Json.obj [("status", Json.str "cancelled")]⟩ : Event)]).getLast?
      = some (⟨rid, "complete", Json.obj [("status", Json.str "cancelled")]⟩ : Event)
    exact List.getLast?_concat _

/-- Witness for C3: a 2-query run with batch size 1 cancelled at the second
batch boundary — only query 1's Result exists, status is `cancelled`. -/
theorem cancellation_at_batch_boundary_witness :
    (exStRun.findRun 1 = some exRun ∧
      exStRun.findAgent exRun.agent_config_id = some exAgentA ∧
      1 < (chunks 1 (loadQueries exStRun.queries [1, 2])).length) ∧
    (_execute_run_inner exExec 1 [1, 2] 1 100 200 150 (some 1) exStRun).results
      = [] ++ (((chunks 1 (loadQueries exStRun.queries [1, 2])).take 1).flatten).map
          (fun q => resultOfOutcome 1 q (exExec q.id)) ∧
    ((_execute_run_inner exExec 1 [1, 2] 1 100 200 150 (some 1) exStRun).findRun 1).map
        Run.status = some "cancelled" ∧
    (_execute_run_inner exExec 1 [1, 2] 1 100 200 150 (some 1) exStRun).events.getLast?
      = some ⟨1, "complete", .obj [("status", .str "cancelled")]⟩ :=
  ⟨⟨by decide, by decide, by decide⟩,
   (cancellation_at_batch_boundary exExec 1 [1, 2] 1 100 200 150 exStRun exRun
      exAgentA 1 (by decide) (by decide) (by decide)).1,
   (cancellation_at_batch_boundary exExec 1 [1, 2] 1 100 200 150 exStRun exRun
      exAgentA 1 (by decide) (by decide) (by decide)).2.1,
   (cancellation_at_batch_boundary exExec 1 [1, 2] 1 100 200 150 exStRun exRun
      exAgentA 1 (by decide) (by decide) (by decide)).2.2⟩

/-! ## JSON artifacts (C8) -/

/-- The queries whose Results the batch loop persists before it stops: all of
them when the cancellation is never observed during the loop, the first `c`
batches when it is observed at boundary `c`. -/
def processedQueries (bs : Nat) (cancelAt : Option Nat) (qs : List Query) :
    List Query :=
  match cancelAt with
  | none => qs
  | some c =>
    if c < (chunks bs qs).length then ((chunks bs qs).take c).flatten else qs

/-- C8 (amended): for every query whose Result the Batch Runner persists while
the run has an output directory, exactly one JSON artifact is written, at
`<output_dir>/json/<ordinal>.json`, whose content is exactly the object
`{id: ordinal as string, query, expected_answer, agent_response, tool_calls,
reasoning, usage, execution_time_seconds}` (absent values defaulted as the
writer does) with an `error` key present if and only if the Result's `error`
is set to a non-empty message. -/
theorem json_artifact_per_result
    (exec : ExecEnv) (rid : Nat) (qids : List Nat) (bs : Nat)
    (now dt ct : Int) (st : St) (run : Run) (agent : AgentConfig)
    (d : String) (cancelAt : Option Nat)
    (hbs : 1 ≤ bs)
    (hfound : st.findRun rid = some run)
    (hagent : st.findAgent run.agent_config_id = some agent)
    (hod : run.output_dir = some d) :
    (_execute_run_inner exec rid qids bs now dt ct cancelAt st).files
      = st.files
        ++ (processedQueries bs cancelAt (loadQueries st.queries qids)).map
            (fun q => ⟨artifactPath d q.ordinal,
              saveResultData q (resultOfOutcome rid q (exec q.id))⟩) ∧
    (∀ (q : Query) (r : Result),
      saveResultData q r
        = Json.obj ([
            ("id", .str (toString q.ordinal)),
            ("query", .str q.query_text),
            ("expected_answer", .str q.expected_answer),
            ("agent_response", .str (r.agent_response.getD "")),
            ("tool_calls", jsonOrDefault r.tool_calls (.arr [])),
            ("reasoning", jsonOrDefault r.reasoning (.arr [])),
            ("usage", jsonOrDefault r.usage (.obj [])),
            ("execution_time_seconds", .num (r.execution_time_seconds.getD 0))]
          ++ (match r.error with
              | some e => if e ≠ "" then [("error", Json.str e)] else []
              | none => []))) ∧
    (∀ (q : Query) (r : Result),
      (saveResultData q r).hasKey "error" = true ↔
        ∃ e, r.error = some e ∧ e ≠ "") := by
  refine ⟨?_, ?_, ?_⟩
  · rcases cancelAt with _ | c
    · have hinner := inner_eq_no_cancel exec rid qids bs now dt ct st run agent
        none (fun c h => by cases h) hfound hagent
      rw [chunks_flatten bs hbs] at hinner
      rw [hinner, runFinalize_files]
      rw [foldl_persist_files, runSetup_files, hod]
      rfl
    · by_cases hlt : c < (chunks bs (loadQueries st.queries qids)).length
      · have hinner := inner_eq_cancel exec rid qids bs now dt ct st run agent c
          hlt hfound hagent
        rw [hinner]
        show ((((chunks bs (loadQueries st.queries qids)).take c).flatten).foldl
          (persistResult exec rid run.output_dir) (runSetup rid now st)).files = _
        rw [foldl_persist_files, runSetup_files, hod]
        simp only [processedQueries, if_pos hlt]
        rfl
      · have hinner := inner_eq_no_cancel exec rid qids bs now dt ct st run agent
          (some c) (fun c' h => by injection h with h'; omega) hfound hagent
        rw [chunks_flatten bs hbs] at hinner
        rw [hinner, runFinalize_files]
        rw [foldl_persist_files, runSetup_files, hod]
        simp only [processedQueries, if_neg hlt]
        rfl
  · intro q r
    cases he : r.error with
    | none => simp [saveResultData, he]
    | some e =>
      by_cases he2 : e = ""
      · simp [saveResultData, he, he2]
      · simp [saveResultData, he, he2]
  · intro q r
    cases he : r.error with
    | none =>
      simp only [saveResultData, he]
      constructor
      · intro h
        exact Bool.noConfusion h
      · rintro ⟨e, he2, -⟩
        exact Option.noConfusion he2
    | some e =>
      by_cases he2 : e = ""
      · subst he2
        simp only [saveResultData, he]
        rw [if_neg (fun hh => hh rfl)]
        constructor
        · intro h
          exact Bool.noConfusion h
        · rintro ⟨e', he', hne⟩
          injection he' with hh
          exact absurd hh.symm hne
      · simp only [saveResultData, he]
        rw [if_pos he2]
        constructor
        · intro _
          exact ⟨e, rfl, he2⟩
        · intro _
          rfl

/-- Counterexample to C8 as stated: a query raising an exception with empty
message is persisted with `error` SET to `some ""`, yet the JSON artifact
carries no `error` key (the writer tests Python truthiness, not nullness). -/
theorem artifact_error_key_counterexample :
    ((_execute_run_inner (fun _ => .exn "") 1 [1] 1 100 200 0 none
        exStRun).results.map Result.error) = [some ""] ∧
    ((_execute_run_inner (fun _ => .exn "") 1 [1] 1 100 200 0 none
        exStRun).files.map (fun f => (f.path, f.content.hasKey "error")))
      = [("/out/json/1.json", false)] :=
  ⟨rfl, rfl⟩

/-- Witness for the amended C8: the 2-query run, query 1 raising `"boom"`. -/
theorem json_artifact_per_result_witness :
    (1 ≤ 1 ∧ exStRun.findRun 1 = some exRun ∧
      exStRun.findAgent exRun.agent_config_id = some exAgentA ∧
      exRun.output_dir = some "/out") ∧
    (_execute_run_inner exExec 1 [1, 2] 1 100 200 0 none exStRun).files
      = [] ++ (processedQueries 1 none (loadQueries exStRun.queries [1, 2])).map
          (fun q => ⟨artifactPath "/out" q.ordinal,
            saveResultData q (resultOfOutcome 1 q (exExec q.id))⟩) ∧
    ((saveResultData (exQueryN 1) (resultOfOutcome 1 (exQueryN 1) (exExec 1))).hasKey
        "error" = true ↔
      ∃ e, (resultOfOutcome 1 (exQueryN 1) (exExec 1)).error = some e ∧ e ≠ "") :=
  ⟨⟨by decide, by decide, by decide, by decide⟩,
   (json_artifact_per_result exExec 1 [1, 2] 1 100 200 0 exStRun exRun exAgentA
      "/out" none (by decide) (by decide) (by decide) (by decide)).1,
   (json_artifact_per_result exExec 1 [1, 2] 1 100 200 0 exStRun exRun exAgentA
      "/out" none (by decide) (by decide) (by decide) (by decide)).2.2
     (exQueryN 1) (resultOfOutcome 1 (exQueryN 1) (exExec 1))⟩

/-! ## Progress invariant (C1) -/

/-- A successful `create_run` returns exactly the `_create_runs` payload of
the resolved inputs. -/
lemma create_run_ok (body : RunCreate) (gid : String) (nid : Nat) (now : Int)
    (st : St) (ret : List Run × St × List ScheduledRunJob)
    (suite : BenchmarkSuite) (agent : AgentConfig) (queries : List Query)
    (qids : List Nat)
    (hres : _resolve_run_inputs body st = .ok (suite, agent, queries, qids))
    (hcreate : create_run body gid nid now st = .ok ret) :
    ret = _create_runs body qids queries.length gid nid now st := by
  simp only [create_run, hres] at hcreate
  by_cases hcond : agent.executor_type = "openai_agents" ∧ queries.length > 3
  · rw [if_pos hcond] at hcreate
    by_cases hgate : approvedPreviewExists st body.suite_id body.agent_config_id = true
    · rw [if_pos hgate] at hcreate
      exact (Except.ok.inj hcreate).symm
    · rw [if_neg hgate] at hcreate
      exact Except.noConfusion hcreate
  · rw [if_neg hcond] at hcreate
    exact (Except.ok.inj hcreate).symm

/-- Every run materialized by `_create_runs` starts with `progress_current = 0`
and `progress_total` fixed to the given resolved query count. -/
lemma mem_create_runs (body : RunCreate) (qids : List Nat) (qc : Nat)
    (gid : String) (nid : Nat) (now : Int) (st : St) (run : Run)
    (h : run ∈ (_create_runs body qids qc gid nid now st).1) :
    run.progress_current = 0 ∧ run.progress_total = qc ∧
      run.batch_size = body.batch_size := by
  simp only [_create_runs] at h
  rw [List.mem_map] at h
  obtain ⟨i, -, rfl⟩ := h
  exact ⟨rfl, rfl, rfl⟩

/-- Inversion of a successful `_resolve_run_inputs`: the resolved queries are
a filter of the query table and the returned ids are their ids. -/
lemma resolve_ok_inversion (body : RunCreate) (st : St)
    (suite : BenchmarkSuite) (agent : AgentConfig) (queries : List Query)
    (qids : List Nat)
    (h : _resolve_run_inputs body st = .ok (suite, agent, queries, qids)) :
    qids = queries.map Query.id ∧
    ((listTruthy body.query_ids = true ∧
      queries = st.queries.filter (fun q =>
        (body.query_ids.getD []).contains q.id && q.suite_id == body.suite_id)) ∨
     (listTruthy body.query_ids = false ∧
      queries = st.queries.filter (fun q => q.suite_id == body.suite_id))) := by
  cases hs : st.findSuite body.suite_id with
  | none =>
    simp only [_resolve_run_inputs, hs] at h
    exact Except.noConfusion h
  | some suite₀ =>
    cases ha : st.findAgent body.agent_config_id with
    | none =>
      simp only [_resolve_run_inputs, hs, ha] at h
      exact Except.noConfusion h
    | some agent₀ =>
      simp only [_resolve_run_inputs, hs, ha] at h
      by_cases ht : listTruthy body.query_ids = true
      · rw [if_pos ht] at h
        by_cases hemp : st.queries.filter (fun q =>
            (body.query_ids.getD []).contains q.id && q.suite_id == body.suite_id) = []
        · rw [if_pos hemp] at h
          exact Except.noConfusion h
        · rw [if_neg hemp] at h
          simp only [Except.ok.injEq, Prod.mk.injEq] at h
          obtain ⟨-, -, hq, hi⟩ := h
          exact ⟨by rw [← hi, hq], Or.inl ⟨ht, hq.symm⟩⟩
      · rw [if_neg ht] at h
        by_cases hemp : st.queries.filter (fun q => q.suite_id == body.suite_id) = []
        · rw [if_pos hemp] at h
          exact Except.noConfusion h
        · rw [if_neg hemp] at h
          simp only [Except.ok.injEq, Prod.mk.injEq] at h
          obtain ⟨-, -, hq, hi⟩ := h
          exact ⟨by rw [← hi, hq], Or.inr ⟨by simpa using ht, hq.symm⟩⟩

/-- With unique primary keys, loading by the ids of a filtered selection
yields exactly as many rows as the selection. -/
lemma loadQueries_length_of_resolved (table : List Query) (φ : Query → Bool)
    (hpk : (table.map Query.id).Nodup) :
    (loadQueries table ((table.filter φ).map Query.id)).length
      = (table.filter φ).length := by
  unfold loadQueries
  rw [List.length_insertionSort]
  congr 1
  apply List.filter_congr
  intro q hq
  cases hφ : φ q with
  | true =>
    have : q.id ∈ (table.filter φ).map Query.id :=
      List.mem_map_of_mem Query.id (List.mem_filter.mpr ⟨hq, hφ⟩)
    simpa using this
  | false =>
    rw [Bool.eq_false_iff]
    intro hcon
    have hmem : q.id ∈ (table.filter φ).map Query.id := by simpa using hcon
    rw [List.mem_map] at hmem
    obtain ⟨q', hq', hid⟩ := hmem
    rw [List.mem_filter] at hq'
    have : q' = q := List.inj_on_of_nodup_map hpk hq'.1 hq hid
    rw [this] at hq'
    rw [hφ] at hq'
    exact Bool.noConfusion hq'.2

/-- Finalization never changes `progress_current` (it only touches status and
timestamps). -/
lemma runFinalize_findRun_progress (rid : Nat) (dt ct : Int)
    (rem : Option Nat) (st : St) :
    Option.map Run.progress_current ((runFinalize rid dt ct rem st).findRun rid)
      = Option.map Run.progress_current (st.findRun rid) := by
  have stepc : ∀ s : St, Option.map Run.progress_current
      ((s.updateRun rid (fun r =>
        { r with status := "cancelled", completed_at := some ct })).findRun rid)
      = Option.map Run.progress_current (s.findRun rid) := by
    intro s
    rw [findRun_updateRun s rid
      (fun r => { r with status := "cancelled", completed_at := some ct })
      (fun _ => rfl)]
    cases s.findRun rid <;> rfl
  have stepd : ∀ s : St, Option.map Run.progress_current
      ((s.updateRun rid (fun r =>
        { r with status := "completed", completed_at := some dt })).findRun rid)
      = Option.map Run.progress_current (s.findRun rid) := by
    intro s
    rw [findRun_updateRun s rid
      (fun r => { r with status := "completed", completed_at := some dt })
      (fun _ => rfl)]
    cases s.findRun rid <;> rfl
  simp only [runFinalize]
  set st1 := if rem = some 0 then st.updateRun rid (fun r =>
    { r with status := "cancelled", completed_at := some ct }) else st with hst1
  have h1 : Option.map Run.progress_current (st1.findRun rid)
      = Option.map Run.progress_current (st.findRun rid) := by
    rw [hst1]
    split
    · exact stepc st
    · rfl
  set st2 := (match st1.findRun rid with
    | some r =>
      if r.status = "running" then
        st1.updateRun rid (fun r =>
          { r with status := "completed", completed_at := some dt })
      else st1
    | none => st1) with hst2
  have h2 : Option.map Run.progress_current (st2.findRun rid)
      = Option.map Run.progress_current (st.findRun rid) := by
    rw [hst2]
    split
    · split
      · rw [stepd st1]
        exact h1
      · exact h1
    · exact h1
  split
  · exact h2
  · exact h2

/-- The loop never persists more Results than there are loaded queries. -/
lemma processedQueries_length_le (bs : Nat) (hbs : 1 ≤ bs)
    (cancelAt : Option Nat) (qs : List Query) :
    (processedQueries bs cancelAt qs).length ≤ qs.length := by
  rcases cancelAt with _ | c
  · exact le_rfl
  · simp only [processedQueries]
    split
    · calc ((chunks bs qs).take c).flatten.length
          ≤ (chunks bs qs).flatten.length := flatten_take_length_le _ _
        _ = qs.length := by rw [chunks_flatten bs hbs]
    · exact le_rfl

/-- C1: every Run materialized by the Run Factory starts with
`progress_current = 0` and `progress_total` fixed to the number of resolved
queries; when the Batch Runner drives it (over a store with the same query
table and unique primary keys), the stored `progress_current` after `n`
persisted Results equals exactly `n` — one increment per persisted Result,
hence monotonically non-decreasing — and never exceeds `progress_total`; the
runner's final state agrees (its progress equals the number of processed
queries, which never exceeds the total). -/
theorem run_progress_invariant
    (body : RunCreate) (gid : String) (nid : Nat) (cnow : Int) (st₀ : St)
    (suite : BenchmarkSuite) (agent : AgentConfig) (queries : List Query)
    (qids : List Nat) (ret : List Run × St × List ScheduledRunJob)
    (hres : _resolve_run_inputs body st₀ = .ok (suite, agent, queries, qids))
    (hcreate : create_run body gid nid cnow st₀ = .ok ret)
    (run : Run) (hrun : run ∈ ret.1)
    (hpk : (st₀.queries.map Query.id).Nodup) :
    run.progress_current = 0 ∧
    run.progress_total = queries.length ∧
    (∀ (st₁ : St) (exec : ExecEnv) (bs : Nat) (cancelAt : Option Nat) (now : Int),
      st₁.queries = st₀.queries →
      1 ≤ bs →
      st₁.findRun run.id = some run →
      (∀ n, n ≤ (processedQueries bs cancelAt (loadQueries st₁.queries qids)).length →
        Option.map Run.progress_current
          ((((processedQueries bs cancelAt (loadQueries st₁.queries qids)).take n).foldl
            (persistResult exec run.id run.output_dir) (runSetup run.id now st₁)).findRun
              run.id) = some n ∧
        (((processedQueries bs cancelAt (loadQueries st₁.queries qids)).take n).foldl
            (persistResult exec run.id run.output_dir) (runSetup run.id now st₁)).results.length
          = st₁.results.length + n ∧
        n ≤ run.progress_total) ∧
      (∀ (dt ct : Int) (agent₁ : AgentConfig),
        st₁.findAgent run.agent_config_id = some agent₁ →
        Option.map Run.progress_current
          ((_execute_run_inner exec run.id qids bs now dt ct cancelAt st₁).findRun
            run.id)
          = some (processedQueries bs cancelAt (loadQueries st₁.queries qids)).length ∧
        (_execute_run_inner exec run.id qids bs now dt ct cancelAt st₁).results.length
          = st₁.results.length
            + (processedQueries bs cancelAt (loadQueries st₁.queries qids)).length)) := by
  have hret := create_run_ok body gid nid cnow st₀ ret suite agent queries qids
    hres hcreate
  rw [hret] at hrun
  obtain ⟨hp0, hpt, -⟩ :=
    mem_create_runs body qids queries.length gid nid cnow st₀ run hrun
  obtain ⟨hqids, hshape⟩ :=
    resolve_ok_inversion body st₀ suite agent queries qids hres
  refine ⟨hp0, hpt, ?_⟩
  intro st₁ exec bs cancelAt now hq hbs hfound₁
  have hlen : (loadQueries st₁.queries qids).length = queries.length := by
    rw [hq]
    rcases hshape with ⟨-, hqe⟩ | ⟨-, hqe⟩
    · rw [hqids, hqe]
      exact loadQueries_length_of_resolved st₀.queries _ hpk
    · rw [hqids, hqe]
      exact loadQueries_length_of_resolved st₀.queries _ hpk
  have hple : (processedQueries bs cancelAt (loadQueries st₁.queries qids)).length
      ≤ queries.length := by
    rw [← hlen]
    exact processedQueries_length_le bs hbs cancelAt _
  constructor
  · intro n hn
    have htk : ((processedQueries bs cancelAt
        (loadQueries st₁.queries qids)).take n).length = n := by
      rw [List.length_take]
      omega
    refine ⟨?_, ?_, ?_⟩
    · rw [foldl_persist_findRun, runSetup_findRun, hfound₁, htk]
      simp [Run.bump, hp0]
    · rw [foldl_persist_results, runSetup_results]
      rw [List.length_append, List.length_map, htk]
    · rw [hpt]
      omega
  · intro dt ct agent₁ hagent₁
    rcases cancelAt with _ | c
    · have hinner := inner_eq_no_cancel exec run.id qids bs now dt ct st₁ run
        agent₁ none (fun c h => by cases h) hfound₁ hagent₁
      rw [chunks_flatten bs hbs] at hinner
      constructor
      · rw [hinner, runFinalize_findRun_progress, foldl_persist_findRun,
          runSetup_findRun, hfound₁]
        simp [processedQueries, Run.bump, hp0]
      · rw [hinner, runFinalize_results, foldl_persist_results, runSetup_results]
        simp [processedQueries]
    · by_cases hlt : c < (chunks bs (loadQueries st₁.queries qids)).length
      · have hinner := inner_eq_cancel exec run.id qids bs now dt ct st₁ run
          agent₁ c hlt hfound₁ hagent₁
        constructor
        · rw [hinner]
          show Option.map Run.progress_current
            ((((((chunks bs (loadQueries st₁.queries qids)).take c).flatten).foldl
              (persistResult exec run.id run.output_dir)
              (runSetup run.id now st₁)).updateRun run.id
              (fun r => { r with status := "cancelled", completed_at := some ct })).findRun
                run.id) = _
          rw [findRun_updateRun _ run.id
            (fun r => { r with status := "cancelled", completed_at := some ct })
            (fun _ => rfl)]
          rw [foldl_persist_findRun, runSetup_findRun, hfound₁]
          simp only [processedQueries, if_pos hlt]
          simp [Run.bump, hp0]
        · rw [hinner]
          show ((((chunks bs (loadQueries st₁.queries qids)).take c).flatten).foldl
            (persistResult exec run.id run.output_dir)
            (runSetup run.id now st₁)).results.length = _
          rw [foldl_persist_results, runSetup_results]
          rw [List.length_append, List.length_map]
          simp only [processedQueries, if_pos hlt]
      · have hinner := inner_eq_no_cancel exec run.id qids bs now dt ct st₁ run
          agent₁ (some c) (fun c' h => by injection h with h'; omega) hfound₁ hagent₁
        rw [chunks_flatten bs hbs] at hinner
        constructor
        · rw [hinner, runFinalize_findRun_progress, foldl_persist_findRun,
            runSetup_findRun, hfound₁]
          simp only [processedQueries, if_neg hlt]
          simp [Run.bump, hp0]
        · rw [hinner, runFinalize_results, foldl_persist_results, runSetup_results]
          simp only [processedQueries, if_neg hlt]
          simp

/-- Fixture: the run that `create_run exBodyAdmit "grp" 10 99 exStAdmit`
materializes. -/
def exRunCreated : Run :=
  { id := 10, suite_id := 1, agent_config_id := 1, label := "L",
    run_group := none, run_number := 1, status := "pending",
    progress_current := 0, progress_total := 4, batch_size := 2,
    error_message := none, output_dir := some "/out", tags := [],
    started_at := none, completed_at := none, created_at := 99 }

/-- Fixture: the admission store with the created run row present. -/
def exStRun2 : St := { exStAdmit with runs := [exRunCreated] }

/-- Fixture: an Executor environment where every query succeeds. -/
def exAllOk : ExecEnv := fun _ => .ok ⟨"r", [], [], [], 1, none⟩

/-- Witness for C1 on the concrete 4-query run, batch size 2, no
cancellation, evaluated after 3 persisted Results and at the final state. -/
theorem run_progress_invariant_witness :
    (_resolve_run_inputs exBodyAdmit exStAdmit
        = .ok (exSuiteA, exAgentA,
               [exQueryN 1, exQueryN 2, exQueryN 3, exQueryN 4], [1, 2, 3, 4]) ∧
      create_run exBodyAdmit "grp" 10 99 exStAdmit
        = .ok (_create_runs exBodyAdmit [1, 2, 3, 4] 4 "grp" 10 99 exStAdmit) ∧
      exRunCreated ∈ (_create_runs exBodyAdmit [1, 2, 3, 4] 4 "grp" 10 99 exStAdmit).1 ∧
      (exStAdmit.queries.map Query.id).Nodup) ∧
    exRunCreated.progress_current = 0 ∧
    exRunCreated.progress_total
      = ([exQueryN 1, exQueryN 2, exQueryN 3, exQueryN 4] : List Query).length ∧
    (Option.map Run.progress_current
      ((((processedQueries 2 none (loadQueries exStRun2.queries [1, 2, 3, 4])).take 3).foldl
        (persistResult exAllOk exRunCreated.id exRunCreated.output_dir)
        (runSetup exRunCreated.id 100 exStRun2)).findRun exRunCreated.id) = some 3 ∧
      (((processedQueries 2 none (loadQueries exStRun2.queries [1, 2, 3, 4])).take 3).foldl
        (persistResult exAllOk exRunCreated.id exRunCreated.output_dir)
        (runSetup exRunCreated.id 100 exStRun2)).results.length
        = exStRun2.results.length + 3 ∧
      3 ≤ exRunCreated.progress_total) ∧
    (Option.map Run.progress_current
      ((_execute_run_inner exAllOk exRunCreated.id [1, 2, 3, 4] 2 100 200 0 none
        exStRun2).findRun exRunCreated.id)
      = some (processedQueries 2 none (loadQueries exStRun2.queries [1, 2, 3, 4])).length ∧
      (_execute_run_inner exAllOk exRunCreated.id [1, 2, 3, 4] 2 100 200 0 none
        exStRun2).results.length
        = exStRun2.results.length
          + (processedQueries 2 none (loadQueries exStRun2.queries [1, 2, 3, 4])).length) :=
  ⟨⟨by rfl, by rfl, by decide, by decide⟩,
   (run_progress_invariant exBodyAdmit "grp" 10 99 exStAdmit exSuiteA exAgentA
      [exQueryN 1, exQueryN 2, exQueryN 3, exQueryN 4] [1, 2, 3, 4]
      (_create_runs exBodyAdmit [1, 2, 3, 4] 4 "grp" 10 99 exStAdmit)
      (by rfl) (by rfl) exRunCreated (by decide) (by decide)).1,
   (run_progress_invariant exBodyAdmit "grp" 10 99 exStAdmit exSuiteA exAgentA
      [exQueryN 1, exQueryN 2, exQueryN 3, exQueryN 4] [1, 2, 3, 4]
      (_create_runs exBodyAdmit [1, 2, 3, 4] 4 "grp" 10 99 exStAdmit)
      (by rfl) (by rfl) exRunCreated (by decide) (by decide)).2.1,
   ((run_progress_invariant exBodyAdmit "grp" 10 99 exStAdmit exSuiteA exAgentA
      [exQueryN 1, exQueryN 2, exQueryN 3, exQueryN 4] [1, 2, 3, 4]
      (_create_runs exBodyAdmit [1, 2, 3, 4] 4 "grp" 10 99 exStAdmit)
      (by rfl) (by rfl) exRunCreated (by decide) (by decide)).2.2 exStRun2 exAllOk
      2 none 100 (by rfl) (by decide) (by decide)).1 3 (by decide),
   ((run_progress_invariant exBodyAdmit "grp" 10 99 exStAdmit exSuiteA exAgentA
      [exQueryN 1, exQueryN 2, exQueryN 3, exQueryN 4] [1, 2, 3, 4]
      (_create_runs exBodyAdmit [1, 2, 3, 4] 4 "grp" 10 99 exStAdmit)
      (by rfl) (by rfl) exRunCreated (by decide) (by decide)).2.2 exStRun2 exAllOk
      2 none 100 (by rfl) (by decide) (by decide)).2 200 0 exAgentA (by decide)⟩

end BenchmarkApp
